import Mathlib

/-!
# Verification of the presence-monitoring engine (script.js / sw.js)

Shallow embedding of the session-reconciliation core of the repository:
the reconciliation engine (`onStatusResult` / `addStatusEvent`), gap repair
(`onReopenFillGap` / `repairStateFromDB`), the polling entry point
(`checkAndRecord` with its simulator fallback), the deterministic simulator
(`simulateStatus`) and the service worker's save path (`workerSaveEvent`).

Modelling conventions:
* JS timestamps (`Date.now()` values, milliseconds) are `Int`.
* `null`-able strings are `Option String`; JS truthiness of a string value
  (`null` and `""` are falsy) is `jsStrTruthy`, and the idiom `g || null` is
  `jsOrNullStr`.  JS truthiness of a numeric `currentSessionStart`
  (`null` and `0` are falsy) is `jsNumTruthy`.
* `Math.floor(a / b)` on integral doubles is `Int.fdiv`.
* IndexedDB is a pair of append-only lists (`DB`); each `dbAdd` is its own
  transaction, so a failing second write leaves the first one committed.
  Write failures are injected through two booleans (`ok1`, `ok2`): success of
  the first and second `dbAdd` performed by the call.  A rejected `dbAdd`
  makes the JS function throw; the boolean in the result marks the throw.
* The purely visual fields `date` (calendar day string) and `createdAt` of
  the stored records, and all rendering work, are omitted; the one state
  mutation performed by the UI helper `updateUILive` (re-opening
  `currentSessionStart` when it is falsy while online) is kept, since it
  touches the engine state.
-/

namespace RobloxMonitor

/-- A presence sample `{online, gameName}` as produced by the real fetcher or
the simulator (`activity` in the spec's vocabulary is the `gameName` field). -/
structure Sample where
  online : Bool
  gameName : Option String
deriving DecidableEq, Repr

/-- A persisted record of the `events` store.  `heartbeat` is `false` for
ordinary events (the JS objects simply lack the field) and `true` for the
heartbeat records written by `onStatusResult`. -/
structure Event where
  username : String
  online : Bool
  gameName : Option String
  timestamp : Int
  heartbeat : Bool
deriving DecidableEq, Repr

/-- A persisted record of the `sessions` store. -/
structure Session where
  username : String
  startTs : Int
  endTs : Int
  durationSec : Int
  gameName : Option String
deriving DecidableEq, Repr

/-- The runtime value of `state.lastKnownStatus` (when non-null). -/
structure LastStatus where
  online : Bool
  gameName : Option String
  ts : Int
deriving DecidableEq, Repr

/-- The engine's volatile state: `state.lastKnownStatus` and
`state.currentSessionStart` from script.js. -/
structure RState where
  lastKnownStatus : Option LastStatus
  currentSessionStart : Option Int
deriving DecidableEq, Repr

/-- The two IndexedDB object stores, as append-only lists. -/
structure DB where
  events : List Event
  sessions : List Session
deriving DecidableEq, Repr

/-- JS truthiness of a nullable string: `null` and `""` are falsy. -/
def jsStrTruthy : Option String → Bool
  | none => false
  | some s => s ≠ ""

/-- The JS idiom `g || null` on a nullable string. -/
def jsOrNullStr (g : Option String) : Option String :=
  if jsStrTruthy g then g else none

/-- JS truthiness of a nullable number: `null` and `0` are falsy. -/
def jsNumTruthy : Option Int → Bool
  | none => false
  | some v => v ≠ 0

/--
`addStatusEvent(username, online, gameName, ts)` from script.js, with
write-failure injection.  `ok1` is the success of the `dbAdd` on the events
store, `ok2` of the (possible) `dbAdd` on the sessions store.  Result:
`(state, db, threw)`; on a throw the function aborts at the failing `await`,
so the state mutations that follow it in the source are not applied.
-/
def addStatusEventE (ok1 ok2 : Bool) (username : String) (online : Bool)
    (gameName : Option String) (ts : Int) (st : RState) (db : DB) :
    RState × DB × Bool :=
  if ¬ ok1 then
    -- `await dbAdd(CONFIG.eventsStore, ev)` rejected: nothing was mutated yet.
    (st, db, true)
  else
    let ev : Event :=
      { username := username, online := online, gameName := jsOrNullStr gameName,
        timestamp := ts, heartbeat := false }
    let db1 : DB := { db with events := db.events ++ [ev] }
    if online then
      if ¬ jsNumTruthy st.currentSessionStart then
        ({ lastKnownStatus := some ⟨online, gameName, ts⟩,
           currentSessionStart := some ts }, db1, false)
      else
        ({ st with lastKnownStatus := some ⟨online, gameName, ts⟩ }, db1, false)
    else
      if jsNumTruthy st.currentSessionStart then
        if ¬ ok2 then
          -- `await dbAdd(CONFIG.sessionsStore, session)` rejected: the event
          -- write above is committed, the state mutations are not reached.
          (st, db1, true)
        else
          let start := st.currentSessionStart.getD 0
          let lkGame : Option String :=
            match st.lastKnownStatus with
            | some lk => lk.gameName
            | none => none
          let sess : Session :=
            { username := username, startTs := start, endTs := ts,
              durationSec := max 0 (Int.fdiv (ts - start) 1000),
              gameName := if jsStrTruthy lkGame then lkGame else jsOrNullStr gameName }
          ({ lastKnownStatus := some ⟨online, gameName, ts⟩,
             currentSessionStart := none },
           { db1 with sessions := db1.sessions ++ [sess] }, false)
      else
        ({ st with lastKnownStatus := some ⟨online, gameName, ts⟩ }, db1, false)

/-- `addStatusEvent` with both writes succeeding. -/
def addStatusEvent (username : String) (online : Bool) (gameName : Option String)
    (ts : Int) (st : RState) (db : DB) : RState × DB :=
  let r := addStatusEventE true true username online gameName ts st db
  (r.1, r.2.1)

/-- The state effect of `updateUILive(online, game)`: when online and
`state.currentSessionStart` is falsy, it is re-opened at
`state.lastKnownStatus.ts` (falling back to the clock when the last known
status is null). -/
def updateUILiveState (online : Bool) (nowTs : Int) (st : RState) : RState :=
  if online then
    if ¬ jsNumTruthy st.currentSessionStart then
      let reopenTs : Int :=
        match st.lastKnownStatus with
        | some lk => lk.ts
        | none => nowTs
      { st with currentSessionStart := some reopenTs }
    else st
  else st

/--
`onStatusResult(res, ts)` from script.js, with write-failure injection
(`ok1`/`ok2` as in `addStatusEventE`; a heartbeat write uses `ok1`).
Result: `(state, db, threw)`.  On a throw the trailing
`state.lastKnownStatus = {online, gameName, ts}` and `updateUILive` are not
reached.
-/
def onStatusResultE (ok1 ok2 : Bool) (username : String) (resOnline : Bool)
    (resGameName : Option String) (ts : Int) (st : RState) (db : DB) :
    RState × DB × Bool :=
  let online := resOnline                    -- !!res.online
  let game := jsOrNullStr resGameName        -- res.gameName || null
  -- the common tail: `state.lastKnownStatus = {online, gameName: game, ts}`
  -- followed by `updateUILive(online, game)`
  let finishTail : RState → DB → RState × DB × Bool := fun st1 db1 =>
    (updateUILiveState online ts { st1 with lastKnownStatus := some ⟨online, game, ts⟩ },
     db1, false)
  match st.lastKnownStatus with
  | none =>
      let r := addStatusEventE ok1 ok2 username online game ts st db
      if r.2.2 then r else finishTail r.1 r.2.1
  | some lk =>
      if lk.online ≠ online ∨ (online = true ∧ lk.gameName ≠ game) then
        let r := addStatusEventE ok1 ok2 username online game ts st db
        if r.2.2 then r else finishTail r.1 r.2.1
      else
        -- `const lastTs = state.lastKnownStatus.ts || 0` is the identity on
        -- an integer timestamp (`0 || 0 === 0`).
        if ts - lk.ts > 30 * 60 * 1000 then
          if ¬ ok1 then (st, db, true)
          else
            let hb : Event :=
              { username := username, online := online, gameName := game,
                timestamp := ts, heartbeat := true }
            let db1 : DB := { db with events := db.events ++ [hb] }
            let st1 : RState := { st with lastKnownStatus := some { lk with ts := ts } }
            finishTail st1 db1
        else
          finishTail st db

/-- `onStatusResult` with all writes succeeding. -/
def onStatusResult (username : String) (resOnline : Bool)
    (resGameName : Option String) (ts : Int) (st : RState) (db : DB) :
    RState × DB :=
  let r := onStatusResultE true true username resOnline resGameName ts st db
  (r.1, r.2.1)

/-- The comparator `(a,b) => a.timestamp - b.timestamp` used by
`repairStateFromDB` and `onReopenFillGap` to sort events. -/
def eventLe (a b : Event) : Bool := a.timestamp ≤ b.timestamp

/-- `all.filter(e => e.username === u).sort((a,b) => a.timestamp - b.timestamp)`
(JS `Array.prototype.sort` is stable, as is `List.mergeSort`). -/
def sortedEventsFor (username : String) (db : DB) : List Event :=
  (db.events.filter (fun e => e.username == username)).mergeSort eventLe

/-- `forUser[forUser.length - 1]` (or absence when `forUser` is empty). -/
def lastEventFor (username : String) (db : DB) : Option Event :=
  (sortedEventsFor username db).getLast?

/-- `repairStateFromDB()` from script.js: reconstruct the runtime state from
the most recent persisted event for the monitored username (a no-op when
there is none). -/
def repairStateFromDB (username : String) (st : RState) (db : DB) : RState :=
  match lastEventFor username db with
  | none => st
  | some lastEv =>
      if lastEv.online then
        { lastKnownStatus := some ⟨true, lastEv.gameName, lastEv.timestamp⟩,
          currentSessionStart := some lastEv.timestamp }
      else
        { lastKnownStatus := some ⟨false, none, lastEv.timestamp⟩,
          currentSessionStart := none }

/--
`onReopenFillGap(currentStatus, nowTs)` from script.js (the successful run of
its `try` block; store writes succeed).  When no prior event exists it
delegates to `addStatusEvent` and returns without state repair; otherwise it
bridges the blind interval and concludes with `repairStateFromDB`.
-/
def onReopenFillGap (username : String) (cur : Sample) (nowTs : Int)
    (st : RState) (db : DB) : RState × DB :=
  match lastEventFor username db with
  | none =>
      addStatusEvent username cur.online cur.gameName nowTs st db
  | some lastEv =>
      if lastEv.online ∧ cur.online = false then
        let start := lastEv.timestamp
        let sess : Session :=
          { username := username, startTs := start, endTs := nowTs,
            durationSec := max 0 (Int.fdiv (nowTs - start) 1000),
            gameName :=
              -- `lastEv.gameName || currentStatus.gameName || null`
              if jsStrTruthy lastEv.gameName then lastEv.gameName
              else jsOrNullStr cur.gameName }
        let ev : Event :=
          { username := username, online := false,
            gameName := jsOrNullStr cur.gameName, timestamp := nowTs,
            heartbeat := false }
        let db1 : DB := { events := db.events ++ [ev],
                          sessions := db.sessions ++ [sess] }
        (repairStateFromDB username st db1, db1)
      else
        let ev : Event :=
          { username := username, online := cur.online,
            gameName := jsOrNullStr cur.gameName, timestamp := nowTs,
            heartbeat := false }
        let db1 : DB := { db with events := db.events ++ [ev] }
        (repairStateFromDB username st db1, db1)

/-- `workerSaveEvent(username, res, ts)` from sw.js (the successful run of its
`try` block).  It always appends an event; on an offline sample it also
appends an approximate five-minute session ending at `ts`. -/
def workerSaveEvent (username : String) (resOnline : Bool)
    (resGameName : Option String) (ts : Int) (db : DB) : DB :=
  let ev : Event :=
    { username := username, online := resOnline,
      gameName := jsOrNullStr resGameName, timestamp := ts, heartbeat := false }
  let db1 : DB := { db with events := db.events ++ [ev] }
  if resOnline = false then
    let approxStart := ts - 5 * 60 * 1000
    let sess : Session :=
      { username := username, startTs := approxStart, endTs := ts,
        durationSec := Int.fdiv (ts - approxStart) 1000,
        gameName := jsOrNullStr resGameName }
    { db1 with sessions := db1.sessions ++ [sess] }
  else db1

/-! ## The simulator (`simulateStatus` from script.js)

`Math.sin` of the host engine is modelled as an arbitrary rational-valued
function of the integer seed: every finite IEEE double is a rational number,
and the determinism claim holds for any fixed such function. -/

/-- The fixed activity catalogue of the simulator. -/
def simGames : List String :=
  ["Jogo A", "Jogo B", "City Adventure", "Tycoon X", "Obby Fun"]

/-- JS `x % n` for a nonnegative dividend `x` and positive divisor `n`:
`x - n * Math.floor(x / n)`. -/
def qMod (x n : ℚ) : ℚ := x - n * ((Int.floor (x / n) : Int) : ℚ)

/-- `simulateStatus(username)` from script.js, as a function of the wall clock
reading `now = Date.now()` and of the engine's `Math.sin` (`sinVal`). -/
def simulateStatus (sinVal : Int → ℚ) (username : String) (now : Int) : Sample :=
  let minute := Int.fdiv now 60000
  let seed : Int :=
    (username.toList.foldl (fun s c => s + (c.toNat : Int)) 0) + minute
  let rnd : ℚ := qMod |sinVal seed| 1
  let online := rnd > (2 / 5 : ℚ)
  let gameName : Option String :=
    -- `games[Math.floor((rnd * 1000) % games.length)]`; an out-of-range index
    -- would be JS `undefined`, i.e. `none`.
    if online then simGames.get? (Int.toNat (Int.floor (qMod (rnd * 1000) 5)))
    else none
  { online := online, gameName := gameName }

/-! ## The polling entry point (`checkAndRecord` from script.js) -/

/-- What the real presence lookup (`fetchRobloxStatus`'s network path) would
return if consulted: either a parsed sample, or a failure.  Both failure
returns of the source (`username não encontrado` and the `catch`) carry
`fallback: true`, so a single failure constructor suffices. -/
inductive RealFetch where
  | ok (online : Bool) (gameName : Option String)
  | failure
deriving DecidableEq, Repr

/-- The application state relevant to `checkAndRecord`: the monitored
username, the runtime simulator flag `state.useSimulator`, its persisted copy
`localStorage['rb_use_sim']`, and the engine state and stores. -/
structure AppState where
  username : String
  useSimulator : Bool
  simPersisted : Bool
  rstate : RState
  db : DB
deriving DecidableEq, Repr

/--
`checkAndRecord()` from script.js, one poll tick at time `ts`.  `net` is what
the real presence source would answer if consulted this tick.  The returned
flag records whether the real source was actually consulted (i.e.
`fetchRobloxStatus` took its network path).  The fresh `Date.now()` read
inside `simulateStatus` is identified with `ts` (same tick, same minute
bucket in practice).
-/
def checkAndRecord (sinVal : Int → ℚ) (net : RealFetch) (ts : Int)
    (app : AppState) : AppState × Bool :=
  if app.username = "" then
    -- `if (!state.username) return;`
    (app, false)
  else if app.useSimulator then
    -- `fetchRobloxStatus` short-circuits to `simulateStatus`.
    let sim := simulateStatus sinVal app.username ts
    let r := onStatusResult app.username sim.online sim.gameName ts app.rstate app.db
    ({ app with rstate := r.1, db := r.2 }, false)
  else
    match net with
    | .ok online gameName =>
        let r := onStatusResult app.username online gameName ts app.rstate app.db
        ({ app with rstate := r.1, db := r.2 }, true)
    | .failure =>
        -- `state.useSimulator = true; localStorage.setItem('rb_use_sim','true');`
        -- then ingest a simulated sample at the tick's `ts`.
        let sim := simulateStatus sinVal app.username ts
        let r := onStatusResult app.username sim.online sim.gameName ts app.rstate app.db
        ({ app with useSimulator := true, simPersisted := true,
                    rstate := r.1, db := r.2 }, true)

/-- A sequence of poll ticks.  Returns the final application state and
whether any tick in the sequence consulted the real presence source. -/
def runPolls (sinVal : Int → ℚ) (polls : List (RealFetch × Int))
    (app : AppState) : AppState × Bool :=
  polls.foldl
    (fun acc p =>
      let r := checkAndRecord sinVal p.1 p.2 acc.1
      (r.1, acc.2 || r.2))
    (app, false)

/-! ## Serialized executions of the core

One serialized operation of the core: a poll-tick ingest (`onStatusResult`),
a gap-repair run (`onReopenFillGap`) or a service-worker save
(`workerSaveEvent`).  The host environment delivers these one at a time (the
spec's §5 serializability assumption); each op carries the `Date.now()`
reading of its tick. -/
inductive Op where
  | ingest (online : Bool) (gameName : Option String) (ts : Int)
  | repair (online : Bool) (gameName : Option String) (ts : Int)
  | worker (online : Bool) (gameName : Option String) (ts : Int)
deriving DecidableEq, Repr

/-- The wall-clock reading of an operation. -/
def Op.ts : Op → Int
  | .ingest _ _ t => t
  | .repair _ _ t => t
  | .worker _ _ t => t

/-- Whether the operation is a service-worker save. -/
def Op.isWorker : Op → Bool
  | .worker _ _ _ => true
  | _ => false

/-- Apply one operation to the engine state and stores. -/
def stepOp (username : String) (p : RState × DB) : Op → RState × DB
  | .ingest onl g t => onStatusResult username onl g t p.1 p.2
  | .repair onl g t => onReopenFillGap username ⟨onl, g⟩ t p.1 p.2
  | .worker onl g t => (p.1, workerSaveEvent username onl g t p.2)

/-- Run a sequence of operations. -/
def runOps (username : String) (ops : List Op) (p : RState × DB) : RState × DB :=
  ops.foldl (stepOp username) p

/-- The state at process start: `lastKnownStatus = null`,
`currentSessionStart = null`, both stores empty. -/
def initP : RState × DB := (⟨none, none⟩, ⟨[], []⟩)

/-- The operations' wall-clock readings strictly increase, starting above
`t0` (`Date.now()` moves forward between serialized operations). -/
def timesIncreasing : Int → List Op → Bool
  | _, [] => true
  | t0, op :: rest => decide (t0 < op.ts) && timesIncreasing op.ts rest

/-- Two sessions overlap when their `[startTs, endTs)` intervals intersect. -/
def Overlaps (s1 s2 : Session) : Prop :=
  s1.startTs < s2.endTs ∧ s2.startTs < s1.endTs

/-- The session-record invariant claimed by the spec: positive extent and
duration derived by flooring the millisecond extent. -/
def SessionWellFormed (s : Session) : Prop :=
  s.startTs < s.endTs ∧ s.durationSec = Int.fdiv (s.endTs - s.startTs) 1000 ∧
    0 ≤ s.durationSec

/-! ## Helper lemmas about `lastEventFor` -/

theorem eventLe_trans (a b c : Event) (h1 : eventLe a b) (h2 : eventLe b c) :
    eventLe a c = true := by
  simp only [eventLe, decide_eq_true_eq] at *
  omega

theorem eventLe_total (a b : Event) : eventLe a b || eventLe b a := by
  simp only [eventLe, Bool.or_eq_true, decide_eq_true_eq]
  omega

theorem getLast_pairwise_le {l : List Event} {y : Event}
    (hp : l.Pairwise (fun a b => eventLe a b = true)) (hy : l.getLast? = some y) :
    ∀ x ∈ l, x.timestamp ≤ y.timestamp := by
  obtain ⟨ys, rfl⟩ := List.getLast?_eq_some_iff.1 hy
  intro x hx
  rcases List.mem_append.1 hx with hx | hx
  · have := (List.pairwise_append.1 hp).2.2 x hx y (List.mem_singleton_self y)
    simpa [eventLe] using this
  · rcases List.mem_singleton.1 hx with rfl
    exact le_refl _

/-- The event returned by `lastEventFor` belongs to the store, carries the
monitored username, and has a maximal timestamp among that username's
events. -/
theorem lastEventFor_spec {u : String} {db : DB} {y : Event}
    (h : lastEventFor u db = some y) :
    y ∈ db.events ∧ y.username = u ∧
      ∀ x ∈ db.events, x.username = u → x.timestamp ≤ y.timestamp := by
  have hpair : (sortedEventsFor u db).Pairwise (fun a b => eventLe a b = true) :=
    List.sorted_mergeSort eventLe_trans eventLe_total _
  have hmem : y ∈ sortedEventsFor u db := List.mem_of_getLast?_eq_some h
  have hmem2 : y ∈ db.events.filter (fun e => e.username == u) :=
    (List.mem_mergeSort).1 hmem
  have hy1 : y ∈ db.events := List.mem_of_mem_filter hmem2
  have hy2 : y.username = u := by
    have := List.of_mem_filter hmem2
    simpa [beq_iff_eq] using this
  refine ⟨hy1, hy2, ?_⟩
  intro x hx hxu
  have hxf : x ∈ db.events.filter (fun e => e.username == u) := by
    apply List.mem_filter.2
    exact ⟨hx, by simp [hxu]⟩
  have hxs : x ∈ sortedEventsFor u db := (List.mem_mergeSort).2 hxf
  exact getLast_pairwise_le hpair h x hxs

theorem lastEventFor_eq_none_iff {u : String} {db : DB} :
    lastEventFor u db = none ↔ db.events.filter (fun e => e.username == u) = [] := by
  unfold lastEventFor sortedEventsFor
  rw [List.getLast?_eq_none_iff]
  constructor
  · intro h
    have := congrArg List.length h
    rw [List.length_mergeSort] at this
    exact List.length_eq_zero.1 this
  · intro h
    rw [h]
    exact List.mergeSort_nil

/-- When every event of the store at the maximal timestamp `K` has the same
reconstruction-relevant content, `lastEventFor` returns an event with that
content (JS `sort` is stable, but this weaker property already pins the
reconstruction down). -/
theorem lastEventFor_content (u : String) (db : DB) (K : Int) (onl : Bool)
    (g : Option String)
    (hex : ∃ e ∈ db.events, e.username = u ∧ e.timestamp = K)
    (hall : ∀ e ∈ db.events, e.username = u →
      e.timestamp < K ∨ (e.timestamp = K ∧ e.online = onl ∧ e.gameName = g)) :
    ∃ y, lastEventFor u db = some y ∧
      y.timestamp = K ∧ y.online = onl ∧ y.gameName = g := by
  obtain ⟨e, he, heu, heK⟩ := hex
  have hne : lastEventFor u db ≠ none := by
    intro hnone
    have hnil := lastEventFor_eq_none_iff.1 hnone
    have : e ∈ db.events.filter (fun e => e.username == u) :=
      List.mem_filter.2 ⟨he, by simp [heu]⟩
    rw [hnil] at this
    exact (List.not_mem_nil e) this
  obtain ⟨y, hy⟩ := Option.ne_none_iff_exists'.1 hne
  obtain ⟨hy1, hy2, hy3⟩ := lastEventFor_spec hy
  have hKy : K ≤ y.timestamp := heK ▸ hy3 e he heu
  rcases hall y hy1 hy2 with hlt | ⟨hK, hon, hg⟩
  · omega
  · exact ⟨y, hy, hK, hon, hg⟩

/-! ## Characterization lemmas for the engine functions -/

theorem jsNumTruthy_eq_true_iff {o : Option Int} :
    jsNumTruthy o = true ↔ ∃ v, o = some v ∧ v ≠ 0 := by
  cases o with
  | none => simp [jsNumTruthy]
  | some v => simp [jsNumTruthy]

theorem addStatusEventE_ok (u : String) (onl : Bool) (g : Option String)
    (ts : Int) (st : RState) (db : DB) :
    (addStatusEventE true true u onl g ts st db).2.2 = false := by
  unfold addStatusEventE
  split <;> simp_all
  split
  · split <;> rfl
  · split
    · split <;> simp_all
    · rfl

/-- The successful run of `addStatusEvent`, branch by branch. -/
theorem addStatusEvent_eq (u : String) (onl : Bool) (g : Option String)
    (ts : Int) (st : RState) (db : DB) :
    addStatusEvent u onl g ts st db =
      let ev : Event := ⟨u, onl, jsOrNullStr g, ts, false⟩
      let db1 : DB := { db with events := db.events ++ [ev] }
      if onl = true then
        if jsNumTruthy st.currentSessionStart = true then
          ({ st with lastKnownStatus := some ⟨onl, g, ts⟩ }, db1)
        else
          (⟨some ⟨onl, g, ts⟩, some ts⟩, db1)
      else
        if jsNumTruthy st.currentSessionStart = true then
          let start := st.currentSessionStart.getD 0
          let lkGame : Option String :=
            match st.lastKnownStatus with
            | some lk => lk.gameName
            | none => none
          let sess : Session :=
            ⟨u, start, ts, max 0 (Int.fdiv (ts - start) 1000),
              if jsStrTruthy lkGame then lkGame else jsOrNullStr g⟩
          (⟨some ⟨onl, g, ts⟩, none⟩, ⟨db1.events, db1.sessions ++ [sess]⟩)
        else
          ({ st with lastKnownStatus := some ⟨onl, g, ts⟩ }, db1) := by
  unfold addStatusEvent addStatusEventE
  by_cases h1 : onl = true <;> by_cases h2 : jsNumTruthy st.currentSessionStart = true <;>
    simp [h1, h2]

/-- The successful run of `onStatusResult`, branch by branch. -/
theorem onStatusResult_eq (u : String) (onl : Bool) (g : Option String)
    (ts : Int) (st : RState) (db : DB) :
    onStatusResult u onl g ts st db =
      let game := jsOrNullStr g
      let tail : RState → DB → RState × DB := fun st1 db1 =>
        (updateUILiveState onl ts { st1 with lastKnownStatus := some ⟨onl, game, ts⟩ },
         db1)
      match st.lastKnownStatus with
      | none =>
          let r := addStatusEvent u onl game ts st db
          tail r.1 r.2
      | some lk =>
          if lk.online ≠ onl ∨ (onl = true ∧ lk.gameName ≠ game) then
            let r := addStatusEvent u onl game ts st db
            tail r.1 r.2
          else if ts - lk.ts > 30 * 60 * 1000 then
            tail { st with lastKnownStatus := some { lk with ts := ts } }
                 { db with events := db.events ++ [⟨u, onl, game, ts, true⟩] }
          else
            tail st db := by
  unfold onStatusResult onStatusResultE
  cases hlk : st.lastKnownStatus with
  | none =>
      simp only [addStatusEvent]
      rw [addStatusEventE_ok]
      simp
  | some lk =>
      by_cases hch : lk.online ≠ onl ∨ (onl = true ∧ lk.gameName ≠ jsOrNullStr g)
      · simp only [hch, if_true, addStatusEvent]
        rw [addStatusEventE_ok]
        simp
      · by_cases hhb : ts - lk.ts > 30 * 60 * 1000
        · simp only [hch, if_false]
          simp [hch]
          split <;> rfl
        · simp only [hch, if_false]
          simp [hch]
          split <;> rfl

/-! ### Branch lemmas -/

theorem addStatusEvent_online_keep {st : RState} (u : String) (g : Option String)
    (ts : Int) (db : DB) (h2 : jsNumTruthy st.currentSessionStart = true) :
    addStatusEvent u true g ts st db =
      ({ st with lastKnownStatus := some ⟨true, g, ts⟩ },
       { db with events := db.events ++ [⟨u, true, jsOrNullStr g, ts, false⟩] }) := by
  rw [addStatusEvent_eq]
  simp [h2]

theorem addStatusEvent_online_open {st : RState} (u : String) (g : Option String)
    (ts : Int) (db : DB) (h2 : jsNumTruthy st.currentSessionStart = false) :
    addStatusEvent u true g ts st db =
      (⟨some ⟨true, g, ts⟩, some ts⟩,
       { db with events := db.events ++ [⟨u, true, jsOrNullStr g, ts, false⟩] }) := by
  rw [addStatusEvent_eq]
  simp [h2]

/-- `state.lastKnownStatus && state.lastKnownStatus.gameName` as read by the
session-closing branch of `addStatusEvent`. -/
def lkGameOf (st : RState) : Option String :=
  match st.lastKnownStatus with
  | some lk => lk.gameName
  | none => none

/-- The session record written by the closing branch of `addStatusEvent`. -/
def closedSession (u : String) (g : Option String) (ts : Int) (st : RState) :
    Session :=
  ⟨u, st.currentSessionStart.getD 0, ts,
    max 0 (Int.fdiv (ts - st.currentSessionStart.getD 0) 1000),
    if jsStrTruthy (lkGameOf st) = true then lkGameOf st else jsOrNullStr g⟩

theorem addStatusEvent_offline_close {st : RState} (u : String) (g : Option String)
    (ts : Int) (db : DB) (h2 : jsNumTruthy st.currentSessionStart = true) :
    addStatusEvent u false g ts st db =
      (⟨some ⟨false, g, ts⟩, none⟩,
       ⟨db.events ++ [⟨u, false, jsOrNullStr g, ts, false⟩],
        db.sessions ++ [closedSession u g ts st]⟩) := by
  rw [addStatusEvent_eq]
  simp only [h2, if_true, if_false, Bool.false_eq_true, reduceIte,
    closedSession, lkGameOf]

theorem addStatusEvent_offline_idle {st : RState} (u : String) (g : Option String)
    (ts : Int) (db : DB) (h2 : jsNumTruthy st.currentSessionStart = false) :
    addStatusEvent u false g ts st db =
      ({ st with lastKnownStatus := some ⟨false, g, ts⟩ },
       { db with events := db.events ++ [⟨u, false, jsOrNullStr g, ts, false⟩] }) := by
  rw [addStatusEvent_eq]
  simp [h2]

theorem updateUILiveState_offline (nowTs : Int) (st : RState) :
    updateUILiveState false nowTs st = st := rfl

theorem updateUILiveState_online_keep {st : RState} (nowTs : Int)
    (h : jsNumTruthy st.currentSessionStart = true) :
    updateUILiveState true nowTs st = st := by
  unfold updateUILiveState
  simp [h]

/-- The timestamp at which `updateUILive` re-opens a falsy session marker:
`state.lastKnownStatus ? state.lastKnownStatus.ts : Date.now()`. -/
def reopenTsOf (st : RState) (nowTs : Int) : Int :=
  match st.lastKnownStatus with
  | some lk => lk.ts
  | none => nowTs

theorem updateUILiveState_online_reopen {st : RState} (nowTs : Int)
    (h : jsNumTruthy st.currentSessionStart = false) :
    updateUILiveState true nowTs st =
      { st with currentSessionStart := some (reopenTsOf st nowTs) } := by
  unfold updateUILiveState
  simp [h, reopenTsOf]

theorem onStatusResult_first {st : RState} (u : String) (onl : Bool)
    (g : Option String) (ts : Int) (db : DB) (hlk : st.lastKnownStatus = none) :
    onStatusResult u onl g ts st db =
      (updateUILiveState onl ts
        { (addStatusEvent u onl (jsOrNullStr g) ts st db).1 with
          lastKnownStatus := some ⟨onl, jsOrNullStr g, ts⟩ },
       (addStatusEvent u onl (jsOrNullStr g) ts st db).2) := by
  rw [onStatusResult_eq]
  simp only [hlk]

theorem onStatusResult_changed {st : RState} {lk : LastStatus} (u : String)
    (onl : Bool) (g : Option String) (ts : Int) (db : DB)
    (hlk : st.lastKnownStatus = some lk)
    (hch : lk.online ≠ onl ∨ (onl = true ∧ lk.gameName ≠ jsOrNullStr g)) :
    onStatusResult u onl g ts st db =
      (updateUILiveState onl ts
        { (addStatusEvent u onl (jsOrNullStr g) ts st db).1 with
          lastKnownStatus := some ⟨onl, jsOrNullStr g, ts⟩ },
       (addStatusEvent u onl (jsOrNullStr g) ts st db).2) := by
  rw [onStatusResult_eq]
  simp only [hlk, hch, if_true]

theorem onStatusResult_heartbeat {st : RState} {lk : LastStatus} (u : String)
    (onl : Bool) (g : Option String) (ts : Int) (db : DB)
    (hlk : st.lastKnownStatus = some lk)
    (hch : ¬(lk.online ≠ onl ∨ (onl = true ∧ lk.gameName ≠ jsOrNullStr g)))
    (hhb : ts - lk.ts > 30 * 60 * 1000) :
    onStatusResult u onl g ts st db =
      (updateUILiveState onl ts
        { st with lastKnownStatus := some ⟨onl, jsOrNullStr g, ts⟩ },
       { db with events := db.events ++ [⟨u, onl, jsOrNullStr g, ts, true⟩] }) := by
  rw [onStatusResult_eq]
  simp only [hlk, hch, if_false, hhb, if_true]

theorem onStatusResult_idle {st : RState} {lk : LastStatus} (u : String)
    (onl : Bool) (g : Option String) (ts : Int) (db : DB)
    (hlk : st.lastKnownStatus = some lk)
    (hch : ¬(lk.online ≠ onl ∨ (onl = true ∧ lk.gameName ≠ jsOrNullStr g)))
    (hhb : ¬ ts - lk.ts > 30 * 60 * 1000) :
    onStatusResult u onl g ts st db =
      (updateUILiveState onl ts
        { st with lastKnownStatus := some ⟨onl, jsOrNullStr g, ts⟩ },
       db) := by
  rw [onStatusResult_eq]
  simp only [hlk, hch, if_false, hhb, if_true]

/-! ## Execution invariants -/

/-- Basic invariant of serialized executions, relative to the wall-clock
bound `T` (the time of the latest completed operation): every stored record
belongs to the monitored username and lies in the past, sessions are
well-formed, and an open-session marker lies in the past. -/
structure Inv6 (u : String) (T : Int) (p : RState × DB) : Prop where
  events_user : ∀ e ∈ p.2.events, e.username = u
  events_le : ∀ e ∈ p.2.events, e.timestamp ≤ T
  sessions_user : ∀ s ∈ p.2.sessions, s.username = u
  sessions_wf : ∀ s ∈ p.2.sessions, SessionWellFormed s
  sessions_le : ∀ s ∈ p.2.sessions, s.endTs ≤ T
  marker_le : ∀ m, p.1.currentSessionStart = some m → m ≤ T

/-- Additional invariant of worker-free executions: the session table is
overlap-free, every session ended at or before the open-session marker, and
every session end is covered by some persisted event. -/
structure InvOverlap (p : RState × DB) : Prop where
  pairwise : p.2.sessions.Pairwise (fun a b => ¬ Overlaps a b)
  marker_ge : ∀ m, p.1.currentSessionStart = some m → ∀ s ∈ p.2.sessions, s.endTs ≤ m
  end_le_event : ∀ s ∈ p.2.sessions, ∃ e ∈ p.2.events, s.endTs ≤ e.timestamp

theorem inv6_weaken {u : String} {T T2 : Int} {p : RState × DB}
    (h : Inv6 u T p) (hle : T ≤ T2) : Inv6 u T2 p where
  events_user := h.events_user
  events_le := fun e he => le_trans (h.events_le e he) hle
  sessions_user := h.sessions_user
  sessions_wf := h.sessions_wf
  sessions_le := fun s hs => le_trans (h.sessions_le s hs) hle
  marker_le := fun m hm => le_trans (h.marker_le m hm) hle

theorem close_duration_wf {a b : Int} (h : a < b) :
    max 0 (Int.fdiv (b - a) 1000) = Int.fdiv (b - a) 1000 ∧
      0 ≤ Int.fdiv (b - a) 1000 := by
  have h1 : (0 : Int) ≤ b - a := by omega
  have h2 : (0 : Int) ≤ Int.fdiv (b - a) 1000 := Int.fdiv_nonneg h1 (by norm_num)
  exact ⟨max_eq_right h2, h2⟩

/-- `addStatusEvent` preserves the basic invariant, advancing the clock. -/
theorem inv6_addStatusEvent {u : String} {T ts : Int} {st : RState} {db : DB}
    (onl : Bool) (g : Option String)
    (h : Inv6 u T (st, db)) (hts : T < ts) :
    Inv6 u ts (addStatusEvent u onl g ts st db) := by
  have hev_user : ∀ (b hb : Bool) (gn : Option String),
      ∀ e ∈ db.events ++ [(⟨u, b, gn, ts, hb⟩ : Event)], e.username = u := by
    intro b hb gn e he
    rcases List.mem_append.1 he with he | he
    · exact h.events_user e he
    · rcases List.mem_singleton.1 he with rfl
      rfl
  have hev_le : ∀ (b hb : Bool) (gn : Option String),
      ∀ e ∈ db.events ++ [(⟨u, b, gn, ts, hb⟩ : Event)], e.timestamp ≤ ts := by
    intro b hb gn e he
    rcases List.mem_append.1 he with he | he
    · exact le_trans (h.events_le e he) (le_of_lt hts)
    · rcases List.mem_singleton.1 he with rfl
      exact le_refl _
  have hss_user : ∀ s ∈ db.sessions, s.username = u := fun s hs => h.sessions_user s hs
  have hss_wf : ∀ s ∈ db.sessions, SessionWellFormed s := fun s hs => h.sessions_wf s hs
  have hss_le : ∀ s ∈ db.sessions, s.endTs ≤ ts :=
    fun s hs => le_trans (h.sessions_le s hs) (le_of_lt hts)
  have hmark : ∀ m, st.currentSessionStart = some m → m ≤ ts :=
    fun m hm => le_trans (h.marker_le m hm) (le_of_lt hts)
  rcases Bool.eq_false_or_eq_true onl with h1 | h1 <;> subst h1 <;>
    cases h2 : jsNumTruthy st.currentSessionStart
  -- online, falsy marker: a session is opened at ts
  case inl.false =>
    rw [addStatusEvent_online_open u g ts db h2]
    refine ⟨hev_user _ _ _, hev_le _ _ _, hss_user, hss_wf, hss_le, ?_⟩
    intro m hm
    rcases Option.some.inj hm with rfl
    exact le_refl _
  -- online, truthy marker: marker kept
  case inl.true =>
    rw [addStatusEvent_online_keep u g ts db h2]
    exact ⟨hev_user _ _ _, hev_le _ _ _, hss_user, hss_wf, hss_le, hmark⟩
  -- offline, falsy marker: nothing closed
  case inr.false =>
    rw [addStatusEvent_offline_idle u g ts db h2]
    exact ⟨hev_user _ _ _, hev_le _ _ _, hss_user, hss_wf, hss_le, hmark⟩
  -- offline with an open, truthy session marker: the session is closed
  case inr.true =>
    rw [addStatusEvent_offline_close u g ts db h2]
    obtain ⟨m, hm, hm0⟩ := jsNumTruthy_eq_true_iff.1 h2
    have hstart : st.currentSessionStart.getD 0 = m := by rw [hm]; rfl
    have hmT : m ≤ T := h.marker_le m hm
    have hmts : m < ts := lt_of_le_of_lt hmT hts
    refine ⟨hev_user _ _ _, hev_le _ _ _, ?_, ?_, ?_, ?_⟩
    · intro s hs
      rcases List.mem_append.1 hs with hs | hs
      · exact hss_user s hs
      · rcases List.mem_singleton.1 hs with rfl
        rfl
    · intro s hs
      rcases List.mem_append.1 hs with hs | hs
      · exact hss_wf s hs
      · rcases List.mem_singleton.1 hs with rfl
        obtain ⟨hmax, hnn⟩ := close_duration_wf (a := m) (b := ts) hmts
        refine ⟨by simp [closedSession, hstart]; omega, ?_, ?_⟩
        · simp [closedSession, SessionWellFormed, hstart, hmax]
        · simp only [SessionWellFormed, closedSession, hstart]
          simpa [hmax] using hnn
    · intro s hs
      rcases List.mem_append.1 hs with hs | hs
      · exact hss_le s hs
      · rcases List.mem_singleton.1 hs with rfl
        exact le_refl _
    · intro m2 hm2
      cases hm2

/-- Appending one fresh event (keeping sessions) preserves the basic
invariant, for any new state whose marker is bounded by the new clock. -/
theorem inv6_append_event {u : String} {T ts : Int} {st : RState} {db : DB}
    (h : Inv6 u T (st, db)) (hts : T < ts) (st2 : RState) (b hb : Bool)
    (gn : Option String)
    (hm2 : ∀ m, st2.currentSessionStart = some m → m ≤ ts) :
    Inv6 u ts (st2, { db with events := db.events ++ [⟨u, b, gn, ts, hb⟩] }) := by
  refine ⟨?_, ?_, h.sessions_user, h.sessions_wf,
    fun s hs => le_trans (h.sessions_le s hs) (le_of_lt hts), hm2⟩
  · intro e he
    rcases List.mem_append.1 he with he | he
    · exact h.events_user e he
    · rcases List.mem_singleton.1 he with rfl
      rfl
  · intro e he
    rcases List.mem_append.1 he with he | he
    · exact le_trans (h.events_le e he) (le_of_lt hts)
    · rcases List.mem_singleton.1 he with rfl
      exact le_refl _

/-- Appending one fresh event and one gap session ending now preserves the
basic invariant, provided the session starts in the past. -/
theorem inv6_append_gap {u : String} {T ts startTs : Int} {st : RState} {db : DB}
    (h : Inv6 u T (st, db)) (hts : T < ts) (hstart : startTs ≤ T)
    (b hb : Bool) (gn gs : Option String) :
    Inv6 u ts (st,
      ⟨db.events ++ [⟨u, b, gn, ts, hb⟩],
       db.sessions ++ [⟨u, startTs, ts, max 0 (Int.fdiv (ts - startTs) 1000), gs⟩]⟩) := by
  have hse : startTs < ts := lt_of_le_of_lt hstart hts
  obtain ⟨hmax, hnn⟩ := close_duration_wf hse
  have base := inv6_append_event h hts st b hb gn
    (fun m hm => le_trans (h.marker_le m hm) (le_of_lt hts))
  refine ⟨base.events_user, base.events_le, ?_, ?_, ?_, base.marker_le⟩
  · intro s hs
    rcases List.mem_append.1 hs with hs | hs
    · exact h.sessions_user s hs
    · rcases List.mem_singleton.1 hs with rfl
      rfl
  · intro s hs
    rcases List.mem_append.1 hs with hs | hs
    · exact h.sessions_wf s hs
    · rcases List.mem_singleton.1 hs with rfl
      exact ⟨hse, by simpa using hmax, by simpa [hmax] using hnn⟩
  · intro s hs
    rcases List.mem_append.1 hs with hs | hs
    · exact le_trans (h.sessions_le s hs) (le_of_lt hts)
    · rcases List.mem_singleton.1 hs with rfl
      exact le_refl _

/-- The marker produced by the tail of `onStatusResult` is either the old one
or a value fixed by `updateUILive` (`ts`, read from the just-committed
last-known status). -/
theorem tail_marker (ts : Int) (st1 : RState) (onl : Bool) (g : Option String) :
    (updateUILiveState onl ts
      { st1 with lastKnownStatus := some ⟨onl, g, ts⟩ }).currentSessionStart
      = st1.currentSessionStart ∨
    (updateUILiveState onl ts
      { st1 with lastKnownStatus := some ⟨onl, g, ts⟩ }).currentSessionStart
      = some ts := by
  unfold updateUILiveState
  rcases Bool.eq_false_or_eq_true onl with h1 | h1 <;> subst h1
  · cases h2 : jsNumTruthy st1.currentSessionStart
    · right
      simp [h2]
    · left
      simp [h2]
  · left
    simp

/-- The common tail of `onStatusResult` (commit the last-known status, then
`updateUILive`) preserves the basic invariant at the new clock `ts`. -/
theorem inv6_tail {u : String} {ts : Int} {st1 : RState} {db1 : DB}
    (h : Inv6 u ts (st1, db1)) (onl : Bool) (g : Option String) :
    Inv6 u ts
      (updateUILiveState onl ts { st1 with lastKnownStatus := some ⟨onl, g, ts⟩ },
       db1) := by
  refine ⟨h.events_user, h.events_le, h.sessions_user, h.sessions_wf,
    h.sessions_le, ?_⟩
  intro m hm
  rcases tail_marker ts st1 onl g with hcase | hcase
  · rw [hcase] at hm
    exact h.marker_le m hm
  · rw [hcase] at hm
    rcases Option.some.inj hm with rfl
    exact le_refl _

/-- One ingest tick preserves the basic invariant. -/
theorem inv6_onStatusResult {u : String} {T ts : Int} {st : RState} {db : DB}
    (onl : Bool) (g : Option String)
    (h : Inv6 u T (st, db)) (hts : T < ts) :
    Inv6 u ts (onStatusResult u onl g ts st db) := by
  cases hlk : st.lastKnownStatus with
  | none =>
      rw [onStatusResult_first u onl g ts db hlk]
      exact inv6_tail (inv6_addStatusEvent onl (jsOrNullStr g) h hts) onl (jsOrNullStr g)
  | some lk =>
      by_cases hch : lk.online ≠ onl ∨ (onl = true ∧ lk.gameName ≠ jsOrNullStr g)
      · rw [onStatusResult_changed u onl g ts db hlk hch]
        exact inv6_tail (inv6_addStatusEvent onl (jsOrNullStr g) h hts) onl (jsOrNullStr g)
      · by_cases hhb : ts - lk.ts > 30 * 60 * 1000
        · rw [onStatusResult_heartbeat u onl g ts db hlk hch hhb]
          refine inv6_tail ?_ onl (jsOrNullStr g)
          exact inv6_append_event h hts _ onl true (jsOrNullStr g)
            (fun m hm => le_trans (h.marker_le m hm) (le_of_lt hts))
        · rw [onStatusResult_idle u onl g ts db hlk hch hhb]
          exact inv6_tail (inv6_weaken h (le_of_lt hts)) onl (jsOrNullStr g)

/-- `repairStateFromDB` preserves the basic invariant (it only rewrites the
runtime state from a persisted event, whose timestamp is in the past). -/
theorem inv6_repairStateFromDB {u : String} {T : Int} {st : RState} {db : DB}
    (h : Inv6 u T (st, db)) :
    Inv6 u T (repairStateFromDB u st db, db) := by
  unfold repairStateFromDB
  cases hlast : lastEventFor u db with
  | none => exact h
  | some lastEv =>
      obtain ⟨hmem, _, _⟩ := lastEventFor_spec hlast
      have hle : lastEv.timestamp ≤ T := h.events_le lastEv hmem
      by_cases honl : lastEv.online = true
      · simp only [honl, if_true]
        refine ⟨h.events_user, h.events_le, h.sessions_user, h.sessions_wf,
          h.sessions_le, ?_⟩
        intro m hm
        rcases Option.some.inj hm with rfl
        exact hle
      · simp only [honl, if_false]
        refine ⟨h.events_user, h.events_le, h.sessions_user, h.sessions_wf,
          h.sessions_le, ?_⟩
        intro m hm
        cases hm

/-- The session record synthesized by the gap branch of `onReopenFillGap`. -/
def gapSession (u : String) (lastEv : Event) (cur : Sample) (nowTs : Int) :
    Session :=
  ⟨u, lastEv.timestamp, nowTs,
    max 0 (Int.fdiv (nowTs - lastEv.timestamp) 1000),
    if jsStrTruthy lastEv.gameName = true then lastEv.gameName
    else jsOrNullStr cur.gameName⟩

theorem onReopenFillGap_none {u : String} {db : DB} (cur : Sample) (nowTs : Int)
    (st : RState) (hlast : lastEventFor u db = none) :
    onReopenFillGap u cur nowTs st db =
      addStatusEvent u cur.online cur.gameName nowTs st db := by
  unfold onReopenFillGap
  rw [hlast]

theorem onReopenFillGap_gap {u : String} {db : DB} {lastEv : Event}
    (cur : Sample) (nowTs : Int) (st : RState)
    (hlast : lastEventFor u db = some lastEv)
    (hbr : lastEv.online = true ∧ cur.online = false) :
    onReopenFillGap u cur nowTs st db =
      (repairStateFromDB u st
        ⟨db.events ++ [⟨u, false, jsOrNullStr cur.gameName, nowTs, false⟩],
         db.sessions ++ [gapSession u lastEv cur nowTs]⟩,
       ⟨db.events ++ [⟨u, false, jsOrNullStr cur.gameName, nowTs, false⟩],
        db.sessions ++ [gapSession u lastEv cur nowTs]⟩) := by
  unfold onReopenFillGap
  rw [hlast]
  simp only [hbr.1, hbr.2, if_true, and_self, reduceIte, gapSession]

theorem onReopenFillGap_other {u : String} {db : DB} {lastEv : Event}
    (cur : Sample) (nowTs : Int) (st : RState)
    (hlast : lastEventFor u db = some lastEv)
    (hbr : ¬ (lastEv.online = true ∧ cur.online = false)) :
    onReopenFillGap u cur nowTs st db =
      (repairStateFromDB u st
        { db with events :=
            db.events ++ [⟨u, cur.online, jsOrNullStr cur.gameName, nowTs, false⟩] },
       { db with events :=
           db.events ++ [⟨u, cur.online, jsOrNullStr cur.gameName, nowTs, false⟩] }) := by
  unfold onReopenFillGap
  rw [hlast]
  simp only [hbr, if_false, reduceIte]

/-- One gap-repair run preserves the basic invariant. -/
theorem inv6_onReopenFillGap {u : String} {T ts : Int} {st : RState} {db : DB}
    (cur : Sample) (h : Inv6 u T (st, db)) (hts : T < ts) :
    Inv6 u ts (onReopenFillGap u cur ts st db) := by
  cases hlast : lastEventFor u db with
  | none =>
      rw [onReopenFillGap_none cur ts st hlast]
      exact inv6_addStatusEvent cur.online cur.gameName h hts
  | some lastEv =>
      obtain ⟨hmem, _, _⟩ := lastEventFor_spec hlast
      have hle : lastEv.timestamp ≤ T := h.events_le lastEv hmem
      by_cases hbr : lastEv.online = true ∧ cur.online = false
      · rw [onReopenFillGap_gap cur ts st hlast hbr]
        have hdb1 := inv6_append_gap h hts hle false false
          (jsOrNullStr cur.gameName)
          (if jsStrTruthy lastEv.gameName = true then lastEv.gameName
           else jsOrNullStr cur.gameName)
        exact inv6_repairStateFromDB hdb1
      · rw [onReopenFillGap_other cur ts st hlast hbr]
        have hdb1 := inv6_append_event h hts st cur.online false
          (jsOrNullStr cur.gameName)
          (fun m hm => le_trans (h.marker_le m hm) (le_of_lt hts))
        exact inv6_repairStateFromDB hdb1

/-- One service-worker save preserves the basic invariant. -/
theorem inv6_workerSaveEvent {u : String} {T ts : Int} {st : RState} {db : DB}
    (onl : Bool) (g : Option String)
    (h : Inv6 u T (st, db)) (hts : T < ts) :
    Inv6 u ts (st, workerSaveEvent u onl g ts db) := by
  unfold workerSaveEvent
  have base := inv6_append_event h hts st onl false (jsOrNullStr g)
    (fun m hm => le_trans (h.marker_le m hm) (le_of_lt hts))
  rcases Bool.eq_false_or_eq_true onl with h1 | h1 <;> subst h1
  · -- online: only the event is appended
    simp only [Bool.true_eq_false, if_false, reduceIte]
    exact base
  · -- offline: the approximate five-minute session is appended as well
    simp only [if_true, reduceIte]
    refine ⟨base.events_user, base.events_le, ?_, ?_, ?_, base.marker_le⟩
    · intro s hs
      rcases List.mem_append.1 hs with hs | hs
      · exact h.sessions_user s hs
      · rcases List.mem_singleton.1 hs with rfl
        rfl
    · intro s hs
      rcases List.mem_append.1 hs with hs | hs
      · exact h.sessions_wf s hs
      · rcases List.mem_singleton.1 hs with rfl
        refine ⟨?_, ?_, ?_⟩
        · show ts - 5 * 60 * 1000 < ts
          omega
        · rfl
        · show (0 : Int) ≤ Int.fdiv (ts - (ts - 5 * 60 * 1000)) 1000
          exact Int.fdiv_nonneg (by omega) (by norm_num)
    · intro s hs
      rcases List.mem_append.1 hs with hs | hs
      · exact le_trans (h.sessions_le s hs) (le_of_lt hts)
      · rcases List.mem_singleton.1 hs with rfl
        exact le_refl _

/-! ### Preservation of the overlap-freedom invariant (worker-free runs) -/

/-- Appending a session that starts no earlier than every existing session's
end keeps the table overlap-free. -/
theorem pairwise_append_session {l : List Session} {sNew : Session}
    (hp : l.Pairwise (fun a b => ¬ Overlaps a b))
    (hge : ∀ s ∈ l, s.endTs ≤ sNew.startTs) :
    (l ++ [sNew]).Pairwise (fun a b => ¬ Overlaps a b) := by
  rw [List.pairwise_append]
  refine ⟨hp, List.pairwise_singleton _ _, ?_⟩
  intro a ha b hb
  rcases List.mem_singleton.1 hb with rfl
  intro hov
  exact absurd hov.2 (not_lt.2 (hge a ha))

/-- `repairStateFromDB` re-derives an overlap-free state: the reconstructed
marker is the maximal event timestamp, which bounds every session end. -/
theorem invOverlap_repairStateFromDB {u : String} {T : Int} {st : RState}
    {db : DB} (h6 : Inv6 u T (st, db))
    (hpair : db.sessions.Pairwise (fun a b => ¬ Overlaps a b))
    (hend : ∀ s ∈ db.sessions, ∃ e ∈ db.events, s.endTs ≤ e.timestamp) :
    InvOverlap (repairStateFromDB u st db, db) := by
  unfold repairStateFromDB
  cases hlast : lastEventFor u db with
  | none =>
      refine ⟨hpair, ?_, hend⟩
      intro m hm s hs
      obtain ⟨e, he, hse⟩ := hend s hs
      -- with no event for the user there is no event at all bounding s.endTs
      -- (every event belongs to the user), contradiction with `hlast`
      have : e ∈ db.events.filter (fun e => e.username == u) :=
        List.mem_filter.2 ⟨he, by simp [h6.events_user e he]⟩
      rw [lastEventFor_eq_none_iff.1 hlast] at this
      exact absurd this (List.not_mem_nil e)
  | some lastEv =>
      have hmax := (lastEventFor_spec hlast).2.2
      have hge : ∀ s ∈ db.sessions, s.endTs ≤ lastEv.timestamp := by
        intro s hs
        obtain ⟨e, he, hse⟩ := hend s hs
        exact le_trans hse (hmax e he (h6.events_user e he))
      by_cases honl : lastEv.online = true
      · simp only [honl, if_true]
        refine ⟨hpair, ?_, hend⟩
        intro m hm s hs
        rcases Option.some.inj hm with rfl
        exact hge s hs
      · simp only [honl, if_false]
        refine ⟨hpair, ?_, hend⟩
        intro m hm
        cases hm

/-- `addStatusEvent` keeps worker-free executions overlap-free. -/
theorem invOverlap_addStatusEvent {u : String} {T ts : Int} {st : RState}
    {db : DB} (onl : Bool) (g : Option String)
    (h6 : Inv6 u T (st, db)) (h5 : InvOverlap (st, db)) (hts : T < ts) :
    InvOverlap (addStatusEvent u onl g ts st db) := by
  have hend_grow : ∀ (evNew : Event),
      ∀ s ∈ db.sessions, ∃ e ∈ db.events ++ [evNew], s.endTs ≤ e.timestamp := by
    intro evNew s hs
    obtain ⟨e, he, hse⟩ := h5.end_le_event s hs
    exact ⟨e, List.mem_append_left _ he, hse⟩
  rcases Bool.eq_false_or_eq_true onl with h1 | h1 <;> subst h1 <;>
    cases h2 : jsNumTruthy st.currentSessionStart
  case inl.false =>
    rw [addStatusEvent_online_open u g ts db h2]
    refine ⟨h5.pairwise, ?_, hend_grow _⟩
    intro m hm s hs
    rcases Option.some.inj hm with rfl
    exact le_trans (h6.sessions_le s hs) (le_of_lt hts)
  case inl.true =>
    rw [addStatusEvent_online_keep u g ts db h2]
    exact ⟨h5.pairwise, h5.marker_ge, hend_grow _⟩
  case inr.false =>
    rw [addStatusEvent_offline_idle u g ts db h2]
    exact ⟨h5.pairwise, h5.marker_ge, hend_grow _⟩
  case inr.true =>
    -- the open session [m, ts) is closed; its start bounds every old end
    rw [addStatusEvent_offline_close u g ts db h2]
    obtain ⟨m, hm, hm0⟩ := jsNumTruthy_eq_true_iff.1 h2
    have hstart : st.currentSessionStart.getD 0 = m := by rw [hm]; rfl
    refine ⟨?_, ?_, ?_⟩
    · refine pairwise_append_session h5.pairwise ?_
      intro s hs
      have := h5.marker_ge m hm s hs
      simpa [closedSession, hstart] using this
    · intro m2 hm2
      cases hm2
    · intro s hs
      rcases List.mem_append.1 hs with hs | hs
      · exact hend_grow _ s hs
      · rcases List.mem_singleton.1 hs with rfl
        refine ⟨⟨u, false, jsOrNullStr g, ts, false⟩, List.mem_append_right _ ?_, ?_⟩
        · exact List.mem_singleton_self _
        · exact le_refl _

/-- The tail of `onStatusResult` keeps the run overlap-free. -/
theorem invOverlap_tail {u : String} {ts : Int} {st1 : RState} {db1 : DB}
    (h6 : Inv6 u ts (st1, db1)) (h5 : InvOverlap (st1, db1))
    (onl : Bool) (g : Option String) :
    InvOverlap
      (updateUILiveState onl ts { st1 with lastKnownStatus := some ⟨onl, g, ts⟩ },
       db1) := by
  refine ⟨h5.pairwise, ?_, h5.end_le_event⟩
  intro m hm s hs
  rcases tail_marker ts st1 onl g with hcase | hcase
  · rw [hcase] at hm
    exact h5.marker_ge m hm s hs
  · rw [hcase] at hm
    rcases Option.some.inj hm with rfl
    exact h6.sessions_le s hs

/-- One ingest tick keeps worker-free executions overlap-free. -/
theorem invOverlap_onStatusResult {u : String} {T ts : Int} {st : RState}
    {db : DB} (onl : Bool) (g : Option String)
    (h6 : Inv6 u T (st, db)) (h5 : InvOverlap (st, db)) (hts : T < ts) :
    InvOverlap (onStatusResult u onl g ts st db) := by
  cases hlk : st.lastKnownStatus with
  | none =>
      rw [onStatusResult_first u onl g ts db hlk]
      exact invOverlap_tail (inv6_addStatusEvent onl (jsOrNullStr g) h6 hts)
        (invOverlap_addStatusEvent onl (jsOrNullStr g) h6 h5 hts) onl (jsOrNullStr g)
  | some lk =>
      by_cases hch : lk.online ≠ onl ∨ (onl = true ∧ lk.gameName ≠ jsOrNullStr g)
      · rw [onStatusResult_changed u onl g ts db hlk hch]
        exact invOverlap_tail (inv6_addStatusEvent onl (jsOrNullStr g) h6 hts)
          (invOverlap_addStatusEvent onl (jsOrNullStr g) h6 h5 hts) onl (jsOrNullStr g)
      · by_cases hhb : ts - lk.ts > 30 * 60 * 1000
        · rw [onStatusResult_heartbeat u onl g ts db hlk hch hhb]
          refine invOverlap_tail (u := u) ?_ ?_ onl (jsOrNullStr g)
          · exact inv6_append_event h6 hts _ onl true (jsOrNullStr g)
              (fun m hm => le_trans (h6.marker_le m hm) (le_of_lt hts))
          · refine ⟨h5.pairwise, h5.marker_ge, ?_⟩
            intro s hs
            obtain ⟨e, he, hse⟩ := h5.end_le_event s hs
            exact ⟨e, List.mem_append_left _ he, hse⟩
        · rw [onStatusResult_idle u onl g ts db hlk hch hhb]
          exact invOverlap_tail (inv6_weaken h6 (le_of_lt hts)) h5 onl (jsOrNullStr g)

/-- One gap-repair run keeps worker-free executions overlap-free. -/
theorem invOverlap_onReopenFillGap {u : String} {T ts : Int} {st : RState}
    {db : DB} (cur : Sample)
    (h6 : Inv6 u T (st, db)) (h5 : InvOverlap (st, db)) (hts : T < ts) :
    InvOverlap (onReopenFillGap u cur ts st db) := by
  cases hlast : lastEventFor u db with
  | none =>
      rw [onReopenFillGap_none cur ts st hlast]
      exact invOverlap_addStatusEvent cur.online cur.gameName h6 h5 hts
  | some lastEv =>
      have hmax := (lastEventFor_spec hlast).2.2
      have hle : lastEv.timestamp ≤ T :=
        h6.events_le lastEv (lastEventFor_spec hlast).1
      by_cases hbr : lastEv.online = true ∧ cur.online = false
      · rw [onReopenFillGap_gap cur ts st hlast hbr]
        have hdb1 := inv6_append_gap h6 hts hle false false
          (jsOrNullStr cur.gameName)
          (if jsStrTruthy lastEv.gameName = true then lastEv.gameName
           else jsOrNullStr cur.gameName)
        refine invOverlap_repairStateFromDB hdb1 ?_ ?_
        · refine pairwise_append_session h5.pairwise ?_
          intro s hs
          obtain ⟨e, he, hse⟩ := h5.end_le_event s hs
          have : e.timestamp ≤ lastEv.timestamp :=
            hmax e he (h6.events_user e he)
          show s.endTs ≤ lastEv.timestamp
          omega
        · intro s hs
          rcases List.mem_append.1 hs with hs | hs
          · obtain ⟨e, he, hse⟩ := h5.end_le_event s hs
            exact ⟨e, List.mem_append_left _ he, hse⟩
          · rcases List.mem_singleton.1 hs with rfl
            refine ⟨⟨u, false, jsOrNullStr cur.gameName, ts, false⟩,
              List.mem_append_right _ (List.mem_singleton_self _), ?_⟩
            exact le_refl _
      · rw [onReopenFillGap_other cur ts st hlast hbr]
        have hdb1 := inv6_append_event h6 hts st cur.online false
          (jsOrNullStr cur.gameName)
          (fun m hm => le_trans (h6.marker_le m hm) (le_of_lt hts))
        refine invOverlap_repairStateFromDB hdb1 h5.pairwise ?_
        intro s hs
        obtain ⟨e, he, hse⟩ := h5.end_le_event s hs
        exact ⟨e, List.mem_append_left _ he, hse⟩

/-! ### Running whole executions -/

theorem inv6_stepOp {u : String} {T : Int} {p : RState × DB} (op : Op)
    (h : Inv6 u T p) (hts : T < op.ts) :
    Inv6 u op.ts (stepOp u p op) := by
  cases op with
  | ingest onl g t => exact inv6_onStatusResult onl g h hts
  | repair onl g t => exact inv6_onReopenFillGap ⟨onl, g⟩ h hts
  | worker onl g t => exact inv6_workerSaveEvent onl g h hts

theorem invOverlap_stepOp {u : String} {T : Int} {p : RState × DB} (op : Op)
    (hw : op.isWorker = false)
    (h6 : Inv6 u T p) (h5 : InvOverlap p) (hts : T < op.ts) :
    InvOverlap (stepOp u p op) := by
  cases op with
  | ingest onl g t => exact invOverlap_onStatusResult onl g h6 h5 hts
  | repair onl g t => exact invOverlap_onReopenFillGap ⟨onl, g⟩ h6 h5 hts
  | worker onl g t => cases hw

theorem inv6_runOps {u : String} {T : Int} {p : RState × DB} {ops : List Op}
    (h : Inv6 u T p) (ht : timesIncreasing T ops = true) :
    ∃ T2, Inv6 u T2 (runOps u ops p) := by
  induction ops generalizing T p with
  | nil => exact ⟨T, h⟩
  | cons op rest ih =>
      simp only [timesIncreasing, Bool.and_eq_true, decide_eq_true_eq] at ht
      exact ih (inv6_stepOp op h ht.1) ht.2

theorem inv_runOps_noWorker {u : String} {T : Int} {p : RState × DB}
    {ops : List Op}
    (h6 : Inv6 u T p) (h5 : InvOverlap p)
    (ht : timesIncreasing T ops = true)
    (hw : ∀ op ∈ ops, op.isWorker = false) :
    ∃ T2, Inv6 u T2 (runOps u ops p) ∧ InvOverlap (runOps u ops p) := by
  induction ops generalizing T p with
  | nil => exact ⟨T, h6, h5⟩
  | cons op rest ih =>
      simp only [timesIncreasing, Bool.and_eq_true, decide_eq_true_eq] at ht
      exact ih (inv6_stepOp op h6 ht.1)
        (invOverlap_stepOp op (hw op (List.mem_cons_self op rest)) h6 h5 ht.1)
        ht.2
        (fun o ho => hw o (List.mem_cons_of_mem op ho))

theorem inv6_initP (u : String) : Inv6 u 0 initP where
  events_user := by intro e he; cases he
  events_le := by intro e he; cases he
  sessions_user := by intro s hs; cases hs
  sessions_wf := by intro s hs; cases hs
  sessions_le := by intro s hs; cases hs
  marker_le := by intro m hm; cases hm

theorem invOverlap_initP : InvOverlap initP where
  pairwise := List.Pairwise.nil
  marker_ge := by intro m hm; cases hm
  end_le_event := by intro s hs; cases hs

/-! ## Claim-facing definitions and helper lemmas -/

theorem jsOrNullStr_of_ne {g : Option String} (hg : g ≠ some "") :
    jsOrNullStr g = g := by
  cases g with
  | none => rfl
  | some s =>
      have hs : s ≠ "" := fun h => hg (by rw [h])
      simp [jsOrNullStr, jsStrTruthy, hs]

theorem jsOrNullStr_eq_of_truthy {g : Option String}
    (h : jsStrTruthy g = true) : jsOrNullStr g = g := by
  unfold jsOrNullStr
  rw [h]
  rfl

theorem jsOrNullStr_eq_none_of_falsy {g : Option String}
    (h : jsStrTruthy g = false) : jsOrNullStr g = none := by
  unfold jsOrNullStr
  rw [h]
  rfl

theorem jsOrNullStr_idem (g : Option String) :
    jsOrNullStr (jsOrNullStr g) = jsOrNullStr g := by
  cases h : jsStrTruthy g
  · rw [jsOrNullStr_eq_none_of_falsy h]
    rfl
  · rw [jsOrNullStr_eq_of_truthy h, jsOrNullStr_eq_of_truthy h]

/-- The events store after a successful `addStatusEvent`: exactly one event is
appended, in every branch. -/
theorem addStatusEvent_events (u : String) (onl : Bool) (g : Option String)
    (ts : Int) (st : RState) (db : DB) :
    (addStatusEvent u onl g ts st db).2.events =
      db.events ++ [⟨u, onl, jsOrNullStr g, ts, false⟩] := by
  rcases Bool.eq_false_or_eq_true onl with h1 | h1 <;> subst h1 <;>
    cases h2 : jsNumTruthy st.currentSessionStart
  case inl.false => rw [addStatusEvent_online_open u g ts db h2]
  case inl.true => rw [addStatusEvent_online_keep u g ts db h2]
  case inr.false => rw [addStatusEvent_offline_idle u g ts db h2]
  case inr.true => rw [addStatusEvent_offline_close u g ts db h2]

/-- The persistence condition of the spec (claim C1), stated from the claim's
words: an Event is persisted iff there is no last-known-state, or the online
flag differs, or both are online and the activity differs, or the state is
unchanged and more than 30 minutes elapsed since the last-known-state's
timestamp. -/
def specPersistCond (st : RState) (onl : Bool) (g : Option String) (ts : Int) :
    Prop :=
  match st.lastKnownStatus with
  | none => True
  | some lk =>
      lk.online ≠ onl ∨ (onl = true ∧ lk.gameName ≠ g) ∨
      (lk.online = onl ∧ ¬(onl = true ∧ lk.gameName ≠ g) ∧
        ts - lk.ts > 30 * 60 * 1000)

/-- The heartbeat case of the spec (claim C1): the state is unchanged and
more than 30 minutes elapsed since the last-known-state's timestamp. -/
def specHeartbeatCase (st : RState) (onl : Bool) (g : Option String) (ts : Int) :
    Prop :=
  match st.lastKnownStatus with
  | none => False
  | some lk =>
      lk.online = onl ∧ ¬(onl = true ∧ lk.gameName ≠ g) ∧
        ts - lk.ts > 30 * 60 * 1000

theorem specPersistCond_none {st : RState} (hlk : st.lastKnownStatus = none)
    (onl : Bool) (g : Option String) (ts : Int) :
    specPersistCond st onl g ts ↔ True := by
  unfold specPersistCond
  rw [hlk]

theorem specPersistCond_some {st : RState} {lk : LastStatus}
    (hlk : st.lastKnownStatus = some lk) (onl : Bool) (g : Option String)
    (ts : Int) :
    specPersistCond st onl g ts ↔
      (lk.online ≠ onl ∨ (onl = true ∧ lk.gameName ≠ g) ∨
        (lk.online = onl ∧ ¬(onl = true ∧ lk.gameName ≠ g) ∧
          ts - lk.ts > 30 * 60 * 1000)) := by
  unfold specPersistCond
  rw [hlk]

theorem specHeartbeatCase_none {st : RState} (hlk : st.lastKnownStatus = none)
    (onl : Bool) (g : Option String) (ts : Int) :
    specHeartbeatCase st onl g ts ↔ False := by
  unfold specHeartbeatCase
  rw [hlk]

theorem specHeartbeatCase_some {st : RState} {lk : LastStatus}
    (hlk : st.lastKnownStatus = some lk) (onl : Bool) (g : Option String)
    (ts : Int) :
    specHeartbeatCase st onl g ts ↔
      (lk.online = onl ∧ ¬(onl = true ∧ lk.gameName ≠ g) ∧
        ts - lk.ts > 30 * 60 * 1000) := by
  unfold specHeartbeatCase
  rw [hlk]

/-- The tail of `onStatusResult` keeps the marker unchanged whenever the
sample is offline or the incoming marker is truthy. -/
theorem tail_marker_keep (ts : Int) (st1 : RState) (onl : Bool)
    (g : Option String)
    (h : onl = true → jsNumTruthy st1.currentSessionStart = true) :
    (updateUILiveState onl ts
      { st1 with lastKnownStatus := some ⟨onl, g, ts⟩ }).currentSessionStart
      = st1.currentSessionStart := by
  unfold updateUILiveState
  rcases Bool.eq_false_or_eq_true onl with h1 | h1 <;> subst h1
  · simp [h rfl]
  · simp

/-! ## Claim C1 -/

/-- C1: for every call to ingest (`onStatusResult`) with a sample
`(onl, g)` at time `ts`, an Event is persisted if and only if: no
last-known-state exists, or the sample's online flag differs, or both are
online and the activity differs, or the state is unchanged and the elapsed
time since the last-known-state's `ts` exceeds 30 minutes — and in that last
case the persisted Event has `heartbeat = true` and `currentSessionStart` is
left unchanged.  (Hypotheses: the sample's activity is not the empty string —
the sources produce `null` or non-empty names — and an online last-known
state comes with a truthy open-session marker, as every engine path
establishes.) -/
theorem C1_ingest_event_iff (u : String) (onl : Bool) (g : Option String)
    (ts : Int) (st : RState) (db : DB)
    (hg : g ≠ some "")
    (hinv : ∀ lk, st.lastKnownStatus = some lk → lk.online = true →
      jsNumTruthy st.currentSessionStart = true) :
    ((onStatusResult u onl g ts st db).2.events.length = db.events.length + 1 ↔
      specPersistCond st onl g ts) ∧
    (¬ specPersistCond st onl g ts → (onStatusResult u onl g ts st db).2 = db) ∧
    (specHeartbeatCase st onl g ts →
      (onStatusResult u onl g ts st db).2.events =
        db.events ++ [⟨u, onl, g, ts, true⟩] ∧
      (onStatusResult u onl g ts st db).1.currentSessionStart =
        st.currentSessionStart) := by
  have hgid : jsOrNullStr g = g := jsOrNullStr_of_ne hg
  cases hlk : st.lastKnownStatus with
  | none =>
      rw [onStatusResult_first u onl g ts db hlk]
      refine ⟨?_, ?_, ?_⟩
      · apply iff_of_true
        · rw [addStatusEvent_events]
          simp
        · rw [specPersistCond_none hlk]
          trivial
      · intro hcond
        exact absurd ((specPersistCond_none hlk onl g ts).2 trivial) hcond
      · intro hcase
        exact absurd ((specHeartbeatCase_none hlk onl g ts).1 hcase) id
  | some lk =>
      by_cases hch : lk.online ≠ onl ∨ (onl = true ∧ lk.gameName ≠ jsOrNullStr g)
      · rw [onStatusResult_changed u onl g ts db hlk hch]
        rw [hgid] at hch
        have hcond : specPersistCond st onl g ts := by
          rw [specPersistCond_some hlk]
          rcases hch with hch | hch
          · exact Or.inl hch
          · exact Or.inr (Or.inl hch)
        refine ⟨?_, fun hx => absurd hcond hx, ?_⟩
        · apply iff_of_true _ hcond
          rw [addStatusEvent_events]
          simp
        · intro hcase
          rw [specHeartbeatCase_some hlk] at hcase
          rcases hch with hch | hch
          · exact absurd hcase.1 hch
          · exact absurd hch hcase.2.1
      · rw [hgid] at hch
        have heq' : lk.online = onl := by
          by_contra hne
          exact hch (Or.inl hne)
        have hact : ¬(onl = true ∧ lk.gameName ≠ g) := fun hc => hch (Or.inr hc)
        have hch2 : ¬(lk.online ≠ onl ∨ (onl = true ∧ lk.gameName ≠ jsOrNullStr g)) := by
          rw [hgid]
          exact hch
        by_cases hhb : ts - lk.ts > 30 * 60 * 1000
        · rw [onStatusResult_heartbeat u onl g ts db hlk hch2 hhb]
          have hcond : specPersistCond st onl g ts := by
            rw [specPersistCond_some hlk]
            exact Or.inr (Or.inr ⟨heq', hact, hhb⟩)
          refine ⟨?_, fun hx => absurd hcond hx, ?_⟩
          · apply iff_of_true _ hcond
            simp
          · intro _
            refine ⟨by rw [hgid], ?_⟩
            refine tail_marker_keep ts _ onl (jsOrNullStr g) ?_
            intro honl
            exact hinv lk hlk (by rw [heq', honl])
        · rw [onStatusResult_idle u onl g ts db hlk hch2 hhb]
          have hnc : ¬ specPersistCond st onl g ts := by
            rw [specPersistCond_some hlk]
            intro hcond
            rcases hcond with hcond | hcond | hcond
            · exact hcond heq'
            · exact hact hcond
            · exact hhb hcond.2.2
          refine ⟨?_, fun _ => rfl, ?_⟩
          · apply iff_of_false _ hnc
            simp
          · intro hcase
            rw [specHeartbeatCase_some hlk] at hcase
            exact absurd hcase.2.2 hhb

/-- An empty pair of stores. -/
def dbEmpty : DB := ⟨[], []⟩

/-- A runtime state thirty-three minutes into an online session. -/
def c1St : RState := ⟨some ⟨true, some "Jogo A", 1000⟩, some 1000⟩

/-- Witness for C1, at a concrete heartbeat-firing input. -/
theorem C1_ingest_event_iff_witness :
    ((some "Jogo A" : Option String) ≠ some "") ∧
    (∀ lk, c1St.lastKnownStatus = some lk → lk.online = true →
      jsNumTruthy c1St.currentSessionStart = true) ∧
    (((onStatusResult "u" true (some "Jogo A") 2000000 c1St dbEmpty).2.events.length
        = dbEmpty.events.length + 1 ↔
      specPersistCond c1St true (some "Jogo A") 2000000) ∧
    (¬ specPersistCond c1St true (some "Jogo A") 2000000 →
      (onStatusResult "u" true (some "Jogo A") 2000000 c1St dbEmpty).2 = dbEmpty) ∧
    (specHeartbeatCase c1St true (some "Jogo A") 2000000 →
      (onStatusResult "u" true (some "Jogo A") 2000000 c1St dbEmpty).2.events =
        dbEmpty.events ++ [⟨"u", true, some "Jogo A", 2000000, true⟩] ∧
      (onStatusResult "u" true (some "Jogo A") 2000000 c1St dbEmpty).1.currentSessionStart =
        c1St.currentSessionStart)) :=
  ⟨by decide, fun lk hlk honl => by decide,
   C1_ingest_event_iff "u" true (some "Jogo A") 2000000 c1St dbEmpty
     (by decide) (fun lk hlk honl => by decide)⟩

/-! ## Claim C2 -/

/-- The state before Scenario A: last seen offline, no open session. -/
def c2St : RState := ⟨some ⟨false, none, 0⟩, none⟩

/-- Scenario A exactly as claimed: offline→online at t = 0 (activity
"Jogo A"), then online→offline at t = 600000 ms. -/
def c2Run1 : RState × DB := onStatusResult "u" true (some "Jogo A") 0 c2St dbEmpty

def c2Run2 : RState × DB := onStatusResult "u" false none 600000 c2Run1.1 c2Run1.2

/-- Counterexample to C2: at the offline ingest the claim's hypotheses hold —
`currentSessionStart` is non-null (`some 0`) and the last-known-state is
online — yet NO Session is written: `if (state.currentSessionStart)` is false
for the number `0` in JS, so the session opened at t = 0 is silently lost.
The claimed Session `{startTs 0, endTs 600000, activity "Jogo A"}` (one
session in the table) does not appear: the table stays empty. -/
theorem C2_counterexample :
    c2Run1.1.currentSessionStart = some 0 ∧
    c2Run1.1.lastKnownStatus = some ⟨true, some "Jogo A", 0⟩ ∧
    c2Run2.2.sessions = [] ∧
    c2Run2.2.events.length = 2 := by decide

/-- C2 as amended: for every ingest of an offline sample at time `ts` while a
session is open with a **non-zero** start (`currentSessionStart = some s`,
`s ≠ 0`) and the last-known-state is online, exactly one Session is written
with `startTs = s`, `endTs = ts`, activity taken from the last-known-state's
activity when that is non-empty and otherwise from the new (offline) sample,
and `currentSessionStart` is then set to `null`. -/
theorem C2_offline_closes_session (u : String) (gNew lkGame : Option String)
    (ts s lkTs : Int) (st : RState) (db : DB)
    (hlk : st.lastKnownStatus = some ⟨true, lkGame, lkTs⟩)
    (hm : st.currentSessionStart = some s) (hs0 : s ≠ 0) :
    (onStatusResult u false gNew ts st db).2.sessions =
      db.sessions ++ [⟨u, s, ts, max 0 (Int.fdiv (ts - s) 1000),
        if jsStrTruthy lkGame = true then lkGame else jsOrNullStr gNew⟩] ∧
    (onStatusResult u false gNew ts st db).2.events =
      db.events ++ [⟨u, false, jsOrNullStr gNew, ts, false⟩] ∧
    (onStatusResult u false gNew ts st db).1.currentSessionStart = none := by
  have hch : (⟨true, lkGame, lkTs⟩ : LastStatus).online ≠ false ∨
      (false = true ∧ (⟨true, lkGame, lkTs⟩ : LastStatus).gameName ≠ jsOrNullStr gNew) :=
    Or.inl (by simp)
  rw [onStatusResult_changed u false gNew ts db hlk hch]
  have h2 : jsNumTruthy st.currentSessionStart = true := by
    rw [hm]
    simpa [jsNumTruthy] using hs0
  rw [addStatusEvent_offline_close u (jsOrNullStr gNew) ts db h2]
  have hstart : st.currentSessionStart.getD 0 = s := by rw [hm]; rfl
  have hlkg : lkGameOf st = lkGame := by rw [lkGameOf, hlk]
  refine ⟨?_, by rw [jsOrNullStr_idem], ?_⟩
  · simp only [closedSession, hstart, hlkg, jsOrNullStr_idem]
  · rw [updateUILiveState_offline]

/-- The state ten minutes into an online session opened at t = 1000 ms. -/
def c2bSt : RState := ⟨some ⟨true, some "Jogo A", 1000⟩, some 1000⟩

/-- Witness for the amended C2: Scenario A shifted off the epoch
(online at t = 1000 ms, offline at t = 601000 ms) yields exactly the
Session `{startTs 1000, endTs 601000, durationSec 600, activity "Jogo A"}`
and clears the marker. -/
theorem C2_offline_closes_session_witness :
    c2bSt.lastKnownStatus = some ⟨true, some "Jogo A", 1000⟩ ∧
    c2bSt.currentSessionStart = some 1000 ∧ (1000 : Int) ≠ 0 ∧
    (onStatusResult "u" false none 601000 c2bSt dbEmpty).2.sessions =
      [⟨"u", 1000, 601000, 600, some "Jogo A"⟩] ∧
    (onStatusResult "u" false none 601000 c2bSt dbEmpty).2.events =
      [⟨"u", false, none, 601000, false⟩] ∧
    (onStatusResult "u" false none 601000 c2bSt dbEmpty).1.currentSessionStart
      = none := by
  have h := C2_offline_closes_session "u" none (some "Jogo A") 601000 1000 1000
    c2bSt dbEmpty rfl rfl (by decide)
  refine ⟨rfl, rfl, by decide, ?_, ?_, h.2.2⟩
  · rw [h.1]
    decide
  · rw [h.2.1]
    decide

/-! ## Claim C3 -/

/-- C3: for every Gap Repair run where the most recent persisted event
`lastEv` is online and the fresh sample at `nowTs` is offline, exactly one
Session is synthesized with `startTs = lastEv.timestamp`, `endTs = nowTs`,
`durationSec = floor((nowTs - lastEv.timestamp)/1000)` and activity
`lastEv.activity ?? sample.activity`, and one new offline Event is persisted
at `nowTs`.  (Hypotheses: `lastEv` is in the past and the activities are not
the empty string, which the sources never produce.) -/
theorem C3_gap_repair_synthesis (u : String) (cur : Sample) (nowTs : Int)
    (st : RState) (db : DB) (lastEv : Event)
    (hlast : lastEventFor u db = some lastEv)
    (honl : lastEv.online = true) (hcur : cur.online = false)
    (hts : lastEv.timestamp ≤ nowTs)
    (hg1 : lastEv.gameName ≠ some "") (hg2 : cur.gameName ≠ some "") :
    (onReopenFillGap u cur nowTs st db).2.sessions =
      db.sessions ++ [⟨u, lastEv.timestamp, nowTs,
        Int.fdiv (nowTs - lastEv.timestamp) 1000,
        lastEv.gameName.or cur.gameName⟩] ∧
    (onReopenFillGap u cur nowTs st db).2.events =
      db.events ++ [⟨u, false, cur.gameName, nowTs, false⟩] := by
  rw [onReopenFillGap_gap cur nowTs st hlast ⟨honl, hcur⟩]
  have hmax : max 0 (Int.fdiv (nowTs - lastEv.timestamp) 1000)
      = Int.fdiv (nowTs - lastEv.timestamp) 1000 :=
    max_eq_right (Int.fdiv_nonneg (by omega) (by norm_num))
  have hgame : (if jsStrTruthy lastEv.gameName = true then lastEv.gameName
      else jsOrNullStr cur.gameName) = lastEv.gameName.or cur.gameName := by
    cases hEg : lastEv.gameName with
    | none =>
        rw [jsOrNullStr_of_ne hg2]
        simp [jsStrTruthy]
    | some s =>
        have hs : s ≠ "" := fun h => hg1 (by rw [hEg, h])
        simp [jsStrTruthy, hs]
  constructor
  · show db.sessions ++ [gapSession u lastEv cur nowTs] = _
    rw [gapSession, hmax, hgame]
  · show db.events ++ [⟨u, false, jsOrNullStr cur.gameName, nowTs, false⟩] = _
    rw [jsOrNullStr_of_ne hg2]

/-- The store before Scenario B: one online event at t = 1000. -/
def c3Db : DB := ⟨[⟨"u", true, some "Jogo A", 1000, false⟩], []⟩

unseal List.mergeSort List.merge in
/-- Witness for C3: Scenario B — last event online at t = 1000, repair finds
offline at t = 5000; one Session `{1000, 5000, 4 s, "Jogo A"}` and one
offline Event at t = 5000 are appended. -/
theorem C3_gap_repair_synthesis_witness :
    lastEventFor "u" c3Db = some ⟨"u", true, some "Jogo A", 1000, false⟩ ∧
    ((1000 : Int) ≤ 5000) ∧
    (onReopenFillGap "u" ⟨false, none⟩ 5000 ⟨none, none⟩ c3Db).2.sessions =
      [⟨"u", 1000, 5000, 4, some "Jogo A"⟩] ∧
    (onReopenFillGap "u" ⟨false, none⟩ 5000 ⟨none, none⟩ c3Db).2.events =
      c3Db.events ++ [⟨"u", false, none, 5000, false⟩] := by
  have h := C3_gap_repair_synthesis "u" ⟨false, none⟩ 5000 ⟨none, none⟩ c3Db
    ⟨"u", true, some "Jogo A", 1000, false⟩ (by decide) rfl rfl (by decide)
    (by decide) (by decide)
  refine ⟨by decide, by decide, ?_, h.2⟩
  rw [h.1]
  decide

/-! ## Claim C4 -/

theorem repairStateFromDB_online {u : String} {st : RState} {db : DB}
    {y : Event} (hy : lastEventFor u db = some y) (honl : y.online = true) :
    repairStateFromDB u st db =
      ⟨some ⟨true, y.gameName, y.timestamp⟩, some y.timestamp⟩ := by
  unfold repairStateFromDB
  rw [hy]
  simp [honl]

theorem repairStateFromDB_offline {u : String} {st : RState} {db : DB}
    {y : Event} (hy : lastEventFor u db = some y) (honl : y.online = false) :
    repairStateFromDB u st db = ⟨some ⟨false, none, y.timestamp⟩, none⟩ := by
  unfold repairStateFromDB
  rw [hy]
  simp [honl]

/--
C4: re-running Gap Repair with the same `(currentSample, nowTs)` and no
intervening ingest reconstructs the same last-known-state and appends no
additional Session; and the concluding reconstruction depends only on the
Event Log's most recent record — `currentSessionStart` becomes that record's
timestamp when it is online and `null` otherwise.  (Hypotheses: a most recent
persisted event exists — the claim's `lastEv` — and every persisted event
predates `nowTs`.)
-/
theorem C4_gap_repair_idempotent (u : String) (cur : Sample) (nowTs : Int)
    (st : RState) (db : DB)
    (hexists : lastEventFor u db ≠ none)
    (hpast : ∀ e ∈ db.events, e.timestamp < nowTs) :
    ((onReopenFillGap u cur nowTs
        (onReopenFillGap u cur nowTs st db).1
        (onReopenFillGap u cur nowTs st db).2).1
      = (onReopenFillGap u cur nowTs st db).1) ∧
    ((onReopenFillGap u cur nowTs
        (onReopenFillGap u cur nowTs st db).1
        (onReopenFillGap u cur nowTs st db).2).2.sessions
      = (onReopenFillGap u cur nowTs st db).2.sessions) ∧
    (∀ (st2 : RState) (db2 : DB) (rEv : Event),
      lastEventFor u db2 = some rEv →
      (repairStateFromDB u st2 db2).currentSessionStart =
        (if rEv.online = true then some rEv.timestamp else none)) := by
  obtain ⟨lastEv, hlast⟩ := Option.ne_none_iff_exists'.1 hexists
  have hrule : ∀ (st2 : RState) (db2 : DB) (rEv : Event),
      lastEventFor u db2 = some rEv →
      (repairStateFromDB u st2 db2).currentSessionStart =
        (if rEv.online = true then some rEv.timestamp else none) := by
    intro st2 db2 rEv hy
    cases honl : rEv.online
    · rw [repairStateFromDB_offline hy honl]
      simp [honl]
    · rw [repairStateFromDB_online hy honl]
      simp [honl]
  by_cases hbr : lastEv.online = true ∧ cur.online = false
  · -- first run synthesizes the gap session and an offline event at nowTs
    rw [onReopenFillGap_gap cur nowTs st hlast hbr]
    obtain ⟨y1, hy1, hy1ts, hy1onl, hy1g⟩ :=
      lastEventFor_content u
        ⟨db.events ++ [⟨u, false, jsOrNullStr cur.gameName, nowTs, false⟩],
         db.sessions ++ [gapSession u lastEv cur nowTs]⟩
        nowTs false (jsOrNullStr cur.gameName)
        ⟨⟨u, false, jsOrNullStr cur.gameName, nowTs, false⟩,
          List.mem_append_right _ (List.mem_singleton_self _), rfl, rfl⟩
        (by
          intro e he _
          rcases List.mem_append.1 he with he | he
          · exact Or.inl (hpast e he)
          · rcases List.mem_singleton.1 he with rfl
            exact Or.inr ⟨rfl, rfl, rfl⟩)
    have hbr2 : ¬ (y1.online = true ∧ cur.online = false) := by
      intro hcon
      rw [hy1onl] at hcon
      exact absurd hcon.1 (by decide)
    rw [onReopenFillGap_other cur nowTs _ hy1 hbr2]
    refine ⟨?_, rfl, hrule⟩
    -- both reconstructions read an offline record at nowTs
    obtain ⟨y2, hy2, hy2ts, hy2onl, hy2g⟩ :=
      lastEventFor_content u
        ⟨(db.events ++ [⟨u, false, jsOrNullStr cur.gameName, nowTs, false⟩])
           ++ [⟨u, cur.online, jsOrNullStr cur.gameName, nowTs, false⟩],
         db.sessions ++ [gapSession u lastEv cur nowTs]⟩
        nowTs false (jsOrNullStr cur.gameName)
        ⟨⟨u, cur.online, jsOrNullStr cur.gameName, nowTs, false⟩,
          List.mem_append_right _ (List.mem_singleton_self _), rfl, rfl⟩
        (by
          intro e he _
          rcases List.mem_append.1 he with he | he
          · rcases List.mem_append.1 he with he | he
            · exact Or.inl (hpast e he)
            · rcases List.mem_singleton.1 he with rfl
              exact Or.inr ⟨rfl, rfl, rfl⟩
          · rcases List.mem_singleton.1 he with rfl
            exact Or.inr ⟨rfl, hbr.2, rfl⟩)
    rw [repairStateFromDB_offline hy2 hy2onl,
      repairStateFromDB_offline hy1 hy1onl, hy1ts, hy2ts]
  · -- first run just appends the current sample as an event
    rw [onReopenFillGap_other cur nowTs st hlast hbr]
    obtain ⟨y1, hy1, hy1ts, hy1onl, hy1g⟩ :=
      lastEventFor_content u
        { db with events :=
          db.events ++ [⟨u, cur.online, jsOrNullStr cur.gameName, nowTs, false⟩] }
        nowTs cur.online (jsOrNullStr cur.gameName)
        ⟨⟨u, cur.online, jsOrNullStr cur.gameName, nowTs, false⟩,
          List.mem_append_right _ (List.mem_singleton_self _), rfl, rfl⟩
        (by
          intro e he _
          rcases List.mem_append.1 he with he | he
          · exact Or.inl (hpast e he)
          · rcases List.mem_singleton.1 he with rfl
            exact Or.inr ⟨rfl, rfl, rfl⟩)
    have hbr2 : ¬ (y1.online = true ∧ cur.online = false) := by
      intro hcon
      rw [hy1onl] at hcon
      rw [hcon.1] at hcon
      exact absurd hcon.2 (by decide)
    rw [onReopenFillGap_other cur nowTs _ hy1 hbr2]
    refine ⟨?_, rfl, hrule⟩
    obtain ⟨y2, hy2, hy2ts, hy2onl, hy2g⟩ :=
      lastEventFor_content u
        { db with events :=
          (db.events ++ [⟨u, cur.online, jsOrNullStr cur.gameName, nowTs, false⟩])
            ++ [⟨u, cur.online, jsOrNullStr cur.gameName, nowTs, false⟩] }
        nowTs cur.online (jsOrNullStr cur.gameName)
        ⟨⟨u, cur.online, jsOrNullStr cur.gameName, nowTs, false⟩,
          List.mem_append_right _ (List.mem_singleton_self _), rfl, rfl⟩
        (by
          intro e he _
          rcases List.mem_append.1 he with he | he
          · rcases List.mem_append.1 he with he | he
            · exact Or.inl (hpast e he)
            · rcases List.mem_singleton.1 he with rfl
              exact Or.inr ⟨rfl, rfl, rfl⟩
          · rcases List.mem_singleton.1 he with rfl
            exact Or.inr ⟨rfl, rfl, rfl⟩)
    cases honl : cur.online
    · rw [honl] at hy1 hy2 hy1onl hy2onl
      rw [repairStateFromDB_offline hy2 hy2onl,
        repairStateFromDB_offline hy1 hy1onl, hy1ts, hy2ts]
    · rw [honl] at hy1 hy2 hy1onl hy2onl
      rw [repairStateFromDB_online hy2 hy2onl,
        repairStateFromDB_online hy1 hy1onl, hy1ts, hy2ts, hy1g, hy2g]

unseal List.mergeSort List.merge in
/-- Witness for C4: Scenario C — last event online at t = 1000, repair samples
online at t = 5000; running repair twice yields the same state and no extra
session, no session is synthesized, and the reconstructed
`currentSessionStart` is 5000 (not 1000). -/
theorem C4_gap_repair_idempotent_witness :
    lastEventFor "u" c3Db ≠ none ∧
    (∀ e ∈ c3Db.events, e.timestamp < 5000) ∧
    ((onReopenFillGap "u" ⟨true, some "Jogo B"⟩ 5000
        (onReopenFillGap "u" ⟨true, some "Jogo B"⟩ 5000 ⟨none, none⟩ c3Db).1
        (onReopenFillGap "u" ⟨true, some "Jogo B"⟩ 5000 ⟨none, none⟩ c3Db).2).1
      = (onReopenFillGap "u" ⟨true, some "Jogo B"⟩ 5000 ⟨none, none⟩ c3Db).1) ∧
    ((onReopenFillGap "u" ⟨true, some "Jogo B"⟩ 5000
        (onReopenFillGap "u" ⟨true, some "Jogo B"⟩ 5000 ⟨none, none⟩ c3Db).1
        (onReopenFillGap "u" ⟨true, some "Jogo B"⟩ 5000 ⟨none, none⟩ c3Db).2).2.sessions
      = (onReopenFillGap "u" ⟨true, some "Jogo B"⟩ 5000 ⟨none, none⟩ c3Db).2.sessions) ∧
    (onReopenFillGap "u" ⟨true, some "Jogo B"⟩ 5000
        ⟨none, none⟩ c3Db).1.currentSessionStart = some 5000 ∧
    (onReopenFillGap "u" ⟨true, some "Jogo B"⟩ 5000 ⟨none, none⟩ c3Db).2.sessions
      = [] := by
  have h := C4_gap_repair_idempotent "u" ⟨true, some "Jogo B"⟩ 5000
    ⟨none, none⟩ c3Db (by decide) (by decide)
  exact ⟨by decide, by decide, h.1, h.2.1, by decide, by decide⟩

/-! ## Claim C5 -/

/-- C5: over every serialized execution of ingests and repair runs (at
strictly increasing wall-clock instants, from process start), the Session
Table never contains two sessions whose `[startTs, endTs)` intervals overlap,
and at most one session is open at any time (the open-session marker holds at
most one start instant). -/
theorem C5_no_overlapping_sessions (u : String) (ops : List Op)
    (ht : timesIncreasing 0 ops = true)
    (hw : ∀ op ∈ ops, op.isWorker = false) :
    (runOps u ops initP).2.sessions.Pairwise (fun a b => ¬ Overlaps a b) ∧
    (∀ m1 m2, (runOps u ops initP).1.currentSessionStart = some m1 →
      (runOps u ops initP).1.currentSessionStart = some m2 → m1 = m2) := by
  obtain ⟨T2, h6, h5⟩ := inv_runOps_noWorker (inv6_initP u) invOverlap_initP ht hw
  refine ⟨h5.pairwise, ?_⟩
  intro m1 m2 h1 h2
  rw [h1] at h2
  exact Option.some.inj h2

/-- A worker-free execution closing two sessions. -/
def c5Ops : List Op :=
  [.ingest true (some "Jogo A") 1000, .ingest false none 700000,
   .repair true (some "Jogo B") 800000, .ingest false none 900000]

unseal List.mergeSort List.merge in
/-- Witness for C5 on a concrete execution that closes two sessions (one via
ingest, one via repair-then-ingest). -/
theorem C5_no_overlapping_sessions_witness :
    timesIncreasing 0 c5Ops = true ∧
    (∀ op ∈ c5Ops, op.isWorker = false) ∧
    (runOps "u" c5Ops initP).2.sessions.length = 2 ∧
    ((runOps "u" c5Ops initP).2.sessions.Pairwise (fun a b => ¬ Overlaps a b) ∧
     (∀ m1 m2, (runOps "u" c5Ops initP).1.currentSessionStart = some m1 →
       (runOps "u" c5Ops initP).1.currentSessionStart = some m2 → m1 = m2)) :=
  ⟨by decide, by decide, by decide,
   C5_no_overlapping_sessions "u" c5Ops (by decide) (by decide)⟩

/-! ## Claim C6 -/

/-- C6: every Session record ever written — by ingest, by Gap Repair or by
the service worker's save path, over any serialized execution at strictly
increasing instants — satisfies `durationSec = floor((endTs - startTs)/1000)`,
`durationSec ≥ 0` and `startTs < endTs`. -/
theorem C6_session_records_wellformed (u : String) (ops : List Op)
    (ht : timesIncreasing 0 ops = true) :
    ∀ s ∈ (runOps u ops initP).2.sessions,
      s.durationSec = Int.fdiv (s.endTs - s.startTs) 1000 ∧
      0 ≤ s.durationSec ∧ s.startTs < s.endTs := by
  obtain ⟨T2, h⟩ := inv6_runOps (inv6_initP u) ht
  intro s hs
  obtain ⟨h1, h2, h3⟩ := h.sessions_wf s hs
  exact ⟨h2, h3, h1⟩

/-- An execution exercising all three writer paths (ingest, worker save,
gap repair). -/
def c6Ops : List Op :=
  [.ingest true (some "Jogo A") 1000, .worker false (some "G") 400000,
   .repair true (some "Jogo B") 500000, .repair false none 800000]

unseal List.mergeSort List.merge in
/-- Witness for C6 on a concrete execution in which the worker writes its
approximate session and gap repair synthesizes another. -/
theorem C6_session_records_wellformed_witness :
    timesIncreasing 0 c6Ops = true ∧
    (runOps "u" c6Ops initP).2.sessions.length = 2 ∧
    (∀ s ∈ (runOps "u" c6Ops initP).2.sessions,
      s.durationSec = Int.fdiv (s.endTs - s.startTs) 1000 ∧
      0 ≤ s.durationSec ∧ s.startTs < s.endTs) :=
  ⟨by decide, by decide,
   C6_session_records_wellformed "u" c6Ops (by decide)⟩

/-! ## Claim C7 -/

/-- Thirty-two poll instants, one per minute starting at t = 1000 ms. -/
def c7Trace : List Int := (List.range 32).map (fun i => 1000 + 60000 * (i : Int))

/-- Ingesting the identical sample at every poll instant. -/
def c7Run : RState × DB :=
  c7Trace.foldl
    (fun p ts => onStatusResult "u" true (some "Jogo A") ts p.1 p.2) initP

/-- C7 evaluated at the claimed failing input: an unchanged sample polled
every 60 s from one initial Event.  During the first 29 minutes no extra
Event is written (as claimed), but at minute 31 — and forever after — NO
heartbeat Event is written either: the events store still holds exactly the
one initial Event and no record with `heartbeat = true`, because
`state.lastKnownStatus` (including its `ts`, against which the 30-minute
threshold is measured) is rewritten at the end of every ingest call, so the
measured "elapsed" time is always one poll interval.  The comment in the
source ("só gravamos heartbeat a cada 30 minutos") and the spec both expect a
heartbeat; the code's unconditional last-known-state update makes that branch
unreachable under continuous polling. -/
theorem C7_heartbeat_never_fires :
    c7Run.2.events.length = 1 ∧
    (∀ e ∈ c7Run.2.events, e.heartbeat = false) ∧
    c7Run.1.lastKnownStatus = some ⟨true, some "Jogo A", 1000 + 60000 * 31⟩ := by
  decide

/-! ## Claim C8 -/

theorem updateUILiveState_lastKnown (onl : Bool) (nowTs : Int) (st : RState) :
    (updateUILiveState onl nowTs st).lastKnownStatus = st.lastKnownStatus := by
  unfold updateUILiveState
  split
  · split
    · rfl
    · rfl
  · rfl

/-- State effect of `addStatusEvent` under write failures: a throw leaves the
runtime state untouched; a completed call commits the sample as the
last-known status. -/
theorem addStatusEventE_state (ok1 ok2 : Bool) (u : String) (onl : Bool)
    (g : Option String) (ts : Int) (st : RState) (db : DB) :
    ((addStatusEventE ok1 ok2 u onl g ts st db).2.2 = true →
      (addStatusEventE ok1 ok2 u onl g ts st db).1 = st) ∧
    ((addStatusEventE ok1 ok2 u onl g ts st db).2.2 = false →
      (addStatusEventE ok1 ok2 u onl g ts st db).1.lastKnownStatus
        = some ⟨onl, g, ts⟩) := by
  unfold addStatusEventE
  split
  · exact ⟨fun _ => rfl, fun h => nomatch h⟩
  · split
    · split
      · exact ⟨(fun h => nomatch h), fun _ => rfl⟩
      · exact ⟨(fun h => nomatch h), fun _ => rfl⟩
    · split
      · split
        · exact ⟨fun _ => rfl, fun h => nomatch h⟩
        · exact ⟨(fun h => nomatch h), fun _ => rfl⟩
      · exact ⟨(fun h => nomatch h), fun _ => rfl⟩

/-- `onStatusResultE` with its local definitions expanded. -/
theorem onStatusResultE_eq (ok1 ok2 : Bool) (u : String) (onl : Bool)
    (g : Option String) (ts : Int) (st : RState) (db : DB) :
    onStatusResultE ok1 ok2 u onl g ts st db =
      match st.lastKnownStatus with
      | none =>
          let r := addStatusEventE ok1 ok2 u onl (jsOrNullStr g) ts st db
          if r.2.2 then r
          else (updateUILiveState onl ts
                  { r.1 with lastKnownStatus := some ⟨onl, jsOrNullStr g, ts⟩ },
                r.2.1, false)
      | some lk =>
          if lk.online ≠ onl ∨ (onl = true ∧ lk.gameName ≠ jsOrNullStr g) then
            let r := addStatusEventE ok1 ok2 u onl (jsOrNullStr g) ts st db
            if r.2.2 then r
            else (updateUILiveState onl ts
                    { r.1 with lastKnownStatus := some ⟨onl, jsOrNullStr g, ts⟩ },
                  r.2.1, false)
          else if ts - lk.ts > 30 * 60 * 1000 then
            if ¬ ok1 then (st, db, true)
            else (updateUILiveState onl ts
                    { st with lastKnownStatus := some ⟨onl, jsOrNullStr g, ts⟩ },
                  { db with events :=
                      db.events ++ [⟨u, onl, jsOrNullStr g, ts, true⟩] }, false)
          else (updateUILiveState onl ts
                  { st with lastKnownStatus := some ⟨onl, jsOrNullStr g, ts⟩ },
                db, false) := by
  unfold onStatusResultE
  rfl

/--
C8 as amended: for every ingest call in which a store write fails (the Event
append or the Session append rejects), the call terminates with the in-memory
last-known-state and `currentSessionStart` unchanged from before the call;
and whenever the call completes without a store failure, the last-known-state
is committed to the ingested sample.  (The original claim's "committed only
when the call has performed a successful Event write" fails: a no-write call
also refreshes the last-known-state — see the counterexample.)
-/
theorem C8_store_failure_preserves_state (ok1 ok2 : Bool) (u : String)
    (onl : Bool) (g : Option String) (ts : Int) (st : RState) (db : DB) :
    ((onStatusResultE ok1 ok2 u onl g ts st db).2.2 = true →
      (onStatusResultE ok1 ok2 u onl g ts st db).1.lastKnownStatus
        = st.lastKnownStatus ∧
      (onStatusResultE ok1 ok2 u onl g ts st db).1.currentSessionStart
        = st.currentSessionStart) ∧
    ((onStatusResultE ok1 ok2 u onl g ts st db).2.2 = false →
      (onStatusResultE ok1 ok2 u onl g ts st db).1.lastKnownStatus
        = some ⟨onl, jsOrNullStr g, ts⟩) := by
  have hadd := addStatusEventE_state ok1 ok2 u onl (jsOrNullStr g) ts st db
  rw [onStatusResultE_eq]
  cases hlk : st.lastKnownStatus with
  | none =>
      dsimp only
      split
      · next hthrew =>
          constructor
          · intro _
            rw [hadd.1 hthrew]
            exact ⟨hlk, rfl⟩
          · intro h
            rw [hthrew] at h
            exact nomatch h
      · next hthrew =>
          dsimp only
          constructor
          · intro h
            exact nomatch h
          · intro _
            rw [updateUILiveState_lastKnown]
  | some lk =>
      dsimp only
      by_cases hch : lk.online ≠ onl ∨ (onl = true ∧ lk.gameName ≠ jsOrNullStr g)
      · rw [if_pos hch]
        split
        · next hthrew =>
            constructor
            · intro _
              rw [hadd.1 hthrew]
              exact ⟨hlk, rfl⟩
            · intro h
              rw [hthrew] at h
              exact nomatch h
        · next hthrew =>
            dsimp only
            constructor
            · intro h
              exact nomatch h
            · intro _
              rw [updateUILiveState_lastKnown]
      · rw [if_neg hch]
        by_cases hhb : ts - lk.ts > 30 * 60 * 1000
        · rw [if_pos hhb]
          split
          · exact ⟨fun _ => ⟨hlk, rfl⟩, fun h => nomatch h⟩
          · dsimp only
            constructor
            · intro h
              exact nomatch h
            · intro _
              rw [updateUILiveState_lastKnown]
        · rw [if_neg hhb]
          dsimp only
          constructor
          · intro h
            exact nomatch h
          · intro _
            rw [updateUILiveState_lastKnown]

/-- Counterexample to C8 as stated: an ingest call that performs NO store
write (state unchanged, below the heartbeat threshold) still commits a new
last-known-state — its timestamp is refreshed by the unconditional
`state.lastKnownStatus = {online, gameName, ts}` — so the last-known-state is
not committed "only when the call has performed a successful Event write". -/
theorem C8_counterexample :
    (onStatusResult "u" true (some "Jogo A") 61000 c1St dbEmpty).2 = dbEmpty ∧
    (onStatusResult "u" true (some "Jogo A") 61000 c1St dbEmpty).1.lastKnownStatus
      ≠ c1St.lastKnownStatus := by decide

/-- Witness for the amended C8: with the Event write rejected (`ok1 = false`)
on an offline transition, the call throws and both in-memory fields survive
unchanged. -/
theorem C8_store_failure_preserves_state_witness :
    (onStatusResultE false true "u" false none 700000 c1St dbEmpty).2.2 = true ∧
    (onStatusResultE false true "u" false none 700000 c1St dbEmpty).1.lastKnownStatus
      = c1St.lastKnownStatus ∧
    (onStatusResultE false true "u" false none 700000 c1St dbEmpty).1.currentSessionStart
      = c1St.currentSessionStart := by
  have h := (C8_store_failure_preserves_state false true "u" false none 700000
    c1St dbEmpty).1 (by decide)
  exact ⟨by decide, h.1, h.2⟩

/-! ## Claim C9 -/

theorem qMod_eq_fract (x : ℚ) {n : ℚ} (hn : 0 < n) :
    qMod x n = n * Int.fract (x / n) := by
  have hne : n ≠ 0 := ne_of_gt hn
  unfold qMod
  rw [Int.fract]
  field_simp

theorem qMod_nonneg (x : ℚ) {n : ℚ} (hn : 0 < n) : 0 ≤ qMod x n := by
  rw [qMod_eq_fract x hn]
  exact mul_nonneg (le_of_lt hn) (Int.fract_nonneg _)

theorem qMod_lt (x : ℚ) {n : ℚ} (hn : 0 < n) : qMod x n < n := by
  rw [qMod_eq_fract x hn]
  calc n * Int.fract (x / n) < n * 1 :=
        (mul_lt_mul_left hn).2 (Int.fract_lt_one _)
    _ = n := mul_one n

/-- C9: the simulator is a pure function of the identity string and the
wall-clock minute bucket — two calls in the same minute bucket return
identical results (same online flag and activity) for any fixed engine
`Math.sin` — and an online result carries an activity from the fixed
catalogue. -/
theorem C9_simulator_deterministic (sinVal : Int → ℚ) (username : String)
    (t1 t2 : Int) (hmin : Int.fdiv t1 60000 = Int.fdiv t2 60000) :
    simulateStatus sinVal username t1 = simulateStatus sinVal username t2 ∧
    ((simulateStatus sinVal username t1).online = true →
      ∃ gm ∈ simGames, (simulateStatus sinVal username t1).gameName = some gm) := by
  constructor
  · unfold simulateStatus
    rw [hmin]
  · intro honline
    unfold simulateStatus at honline ⊢
    dsimp only at honline ⊢
    rw [if_pos (of_decide_eq_true honline)]
    set rnd : ℚ :=
      qMod |sinVal ((username.toList.foldl (fun s c => s + (c.toNat : Int)) 0)
        + Int.fdiv t1 60000)| 1 with hrnd
    have h0 : (0 : ℚ) ≤ qMod (rnd * 1000) 5 := qMod_nonneg _ (by norm_num)
    have h5 : qMod (rnd * 1000) 5 < 5 := qMod_lt _ (by norm_num)
    have hf0 : 0 ≤ Int.floor (qMod (rnd * 1000) 5) := Int.floor_nonneg.2 h0
    have hf5 : Int.floor (qMod (rnd * 1000) 5) < 5 := by
      rw [Int.floor_lt]
      exact_mod_cast h5
    have hidx : Int.toNat (Int.floor (qMod (rnd * 1000) 5)) < simGames.length := by
      show Int.toNat (Int.floor (qMod (rnd * 1000) 5)) < 5
      rw [Int.toNat_lt hf0]
      exact_mod_cast hf5
    refine ⟨simGames.get ⟨Int.toNat (Int.floor (qMod (rnd * 1000) 5)), hidx⟩, ?_, ?_⟩
    · exact List.get_mem _ _ _
    · exact List.get?_eq_get hidx

/-- Witness for C9: two clock readings in the same minute bucket
(`t = 0 ms` and `t = 59999 ms`) with a concrete rational stand-in for
`Math.sin`. -/
theorem C9_simulator_deterministic_witness :
    Int.fdiv 0 60000 = Int.fdiv 59999 60000 ∧
    (simulateStatus (fun _ => (1 / 2 : ℚ)) "abc" 0 =
      simulateStatus (fun _ => (1 / 2 : ℚ)) "abc" 59999 ∧
    ((simulateStatus (fun _ => (1 / 2 : ℚ)) "abc" 0).online = true →
      ∃ gm ∈ simGames,
        (simulateStatus (fun _ => (1 / 2 : ℚ)) "abc" 0).gameName = some gm)) :=
  ⟨by decide,
   C9_simulator_deterministic (fun _ => (1 / 2 : ℚ)) "abc" 0 59999 (by decide)⟩

/-! ## Claim C10 -/

/-- With the simulator flag set, a poll never consults the real source and
never clears the flag. -/
theorem checkAndRecord_latched (sinVal : Int → ℚ) (net : RealFetch) (ts : Int)
    (app : AppState) (h : app.useSimulator = true) :
    (checkAndRecord sinVal net ts app).1.useSimulator = true ∧
    (checkAndRecord sinVal net ts app).2 = false := by
  unfold checkAndRecord
  split <;> exact ⟨h, rfl⟩

/-- Poll sequences keep the simulator flag latched and never consult the
real source. -/
theorem runPolls_latched (sinVal : Int → ℚ) (polls : List (RealFetch × Int))
    (app : AppState) (h : app.useSimulator = true) :
    (runPolls sinVal polls app).1.useSimulator = true ∧
    (runPolls sinVal polls app).2 = false := by
  unfold runPolls
  suffices hgen : ∀ (ps : List (RealFetch × Int)) (a : AppState) (b : Bool),
      a.useSimulator = true →
      ((ps.foldl (fun acc p =>
          let r := checkAndRecord sinVal p.1 p.2 acc.1
          (r.1, acc.2 || r.2)) (a, b)).1.useSimulator = true ∧
       (ps.foldl (fun acc p =>
          let r := checkAndRecord sinVal p.1 p.2 acc.1
          (r.1, acc.2 || r.2)) (a, b)).2 = b) by
    exact hgen polls app false h
  intro ps
  induction ps with
  | nil =>
      intro a b ha
      exact ⟨ha, rfl⟩
  | cons p rest ih =>
      intro a b ha
      obtain ⟨h1, h2⟩ := checkAndRecord_latched sinVal p.1 p.2 a ha
      simp only [List.foldl_cons]
      rw [h2, Bool.or_false]
      exact ih (checkAndRecord sinVal p.1 p.2 a).1 b h1

/--
C10: once a poll cycle's real-source fetch returns a fallback-eligible
failure, `checkAndRecord` sets the simulator flag (and persists it to
localStorage), and every subsequent poll obtains its sample from the
simulator — over any later poll sequence the flag stays set and the real
presence source is never consulted again (it would only be consulted again
if the flag were reset externally).
-/
theorem C10_simulator_fallback_latches (sinVal : Int → ℚ) (net : RealFetch)
    (ts : Int) (app : AppState) (polls : List (RealFetch × Int))
    (huser : ¬ app.username = "") (hsim : app.useSimulator = false)
    (hnet : net = RealFetch.failure) :
    (checkAndRecord sinVal net ts app).1.useSimulator = true ∧
    (checkAndRecord sinVal net ts app).1.simPersisted = true ∧
    (runPolls sinVal polls (checkAndRecord sinVal net ts app).1).1.useSimulator
      = true ∧
    (runPolls sinVal polls (checkAndRecord sinVal net ts app).1).2 = false := by
  subst hnet
  have hnotsim : ¬ (app.useSimulator = true) := by
    rw [hsim]
    exact fun hc => nomatch hc
  have hstep : (checkAndRecord sinVal RealFetch.failure ts app).1.useSimulator
      = true ∧
      (checkAndRecord sinVal RealFetch.failure ts app).1.simPersisted = true := by
    unfold checkAndRecord
    rw [if_neg huser, if_neg hnotsim]
    exact ⟨rfl, rfl⟩
  obtain ⟨hl, hp⟩ := runPolls_latched sinVal polls _ hstep.1
  exact ⟨hstep.1, hstep.2, hl, hp⟩

/-- An application state polling the real source for user "abc". -/
def c10App : AppState := ⟨"abc", false, false, ⟨none, none⟩, dbEmpty⟩

/-- Witness for C10: a failing real fetch at t = 1000 followed by two more
polls (one of which would succeed if consulted) — the flag is set and
persisted, stays set, and the real source is never consulted again. -/
theorem C10_simulator_fallback_latches_witness :
    (¬ c10App.username = "") ∧ c10App.useSimulator = false ∧
    ((checkAndRecord (fun _ => (1 / 2 : ℚ)) RealFetch.failure 1000 c10App).1.useSimulator = true ∧
     (checkAndRecord (fun _ => (1 / 2 : ℚ)) RealFetch.failure 1000 c10App).1.simPersisted = true ∧
     (runPolls (fun _ => (1 / 2 : ℚ))
        [(RealFetch.ok true (some "Jogo A"), 61000), (RealFetch.failure, 121000)]
        (checkAndRecord (fun _ => (1 / 2 : ℚ)) RealFetch.failure 1000 c10App).1).1.useSimulator = true ∧
     (runPolls (fun _ => (1 / 2 : ℚ))
        [(RealFetch.ok true (some "Jogo A"), 61000), (RealFetch.failure, 121000)]
        (checkAndRecord (fun _ => (1 / 2 : ℚ)) RealFetch.failure 1000 c10App).1).2 = false) :=
  ⟨by decide, by decide,
   C10_simulator_fallback_latches (fun _ => (1 / 2 : ℚ)) RealFetch.failure 1000
     c10App [(RealFetch.ok true (some "Jogo A"), 61000), (RealFetch.failure, 121000)]
     (by decide) (by decide) rfl⟩

end RobloxMonitor
